import Mathlib

/-!
Verification development for the residual/ResNeXt block library
(`layers/residual.py` of the MDNT repository).

The file shallowly embeds the constructor checks, the latent
filter/group inference, the padding/cropping inference of the
transposed blocks, the structural assembly produced by `build`,
and the layer chain executed by `call`, and proves the frozen
claims about them.

Conventions:
* Python ints are `Int` (or `Nat` where the source guarantees
  non-negativity, e.g. padding amounts obtained from a positive
  difference).
* Spatial shapes are lists of `Int`, one entry per spatial axis;
  the batch axis is ignored and the channel count kept separately.
* Raising `ValueError`/`TypeError` is modelled with
  `Except String`.
* `NACUnit`, `_AConv`, the dropout factory and the keras
  upsampling/padding/cropping layers live in sibling modules that
  are not part of the sources; their shape behaviour is modelled
  from the spec (definitions marked `Modelled from the spec:`).
-/

/-- Source `_check_dl_func = lambda a: all(ai==1 for ai in a)`. -/
def checkDlFunc (a : List Int) : Bool :=
  a.all (fun ai => ai == 1)

/-- A list of `rank` ones, the normalized form of the literal `1`
passed for `kernel_size`, `strides` or `dilation_rate`
(`conv_utils.normalize_tuple(1, rank, ...)`). -/
def onesL (rank : Nat) : List Int :=
  List.replicate rank 1

/-- Data format after `conv_utils.normalize_data_format`. -/
inductive DataFormat where
  | channelsFirst
  | channelsLast
deriving DecidableEq, Repr

/-- Per-axis padding/cropping inference of
`_ResidualTranspose.build` / `_ResnextTranspose.build`:
`get_shape_diff = l_output_mshape[i] - l_input_shape[i]*max(strides[i], dilation_rate[i])`,
then the `>0` / `<0` / `=0` branches producing
`(b_inf, b_sup) = (diff // 2, diff // 2 + diff % 2)` on the
appropriate side.  Returns the `(padding, cropping)` pair for one
axis. -/
def inferAxis (m i s d : Int) : (Nat × Nat) × (Nat × Nat) :=
  let diff : Int := m - i * max s d
  if 0 < diff then
    let n := diff.toNat
    ((n / 2, n / 2 + n % 2), (0, 0))
  else if diff < 0 then
    let n := (-diff).toNat
    ((0, 0), (n / 2, n / 2 + n % 2))
  else
    ((0, 0), (0, 0))

/-- The loop `for i in range(self.rank)` of the transposed `build`
methods, applied to the spatial entries of `output_mshape`, the
input shape, `strides` and `dilation_rate` (all four lists have
length `rank` there). -/
def inferAxes : List Int → List Int → List Int → List Int →
    List ((Nat × Nat) × (Nat × Nat))
  | m :: ms, i :: is, s :: ss, d :: ds =>
      inferAxis m i s d :: inferAxes ms is ss ds
  | _, _, _, _ => []

/-- The `deFlag` collapse of the transposed `build` methods: the
loop counts the axes whose pair is `(0, 0)` and replaces the whole
list by `None` when the count reaches `self.rank`. -/
def deFlagCollapse (rank : Nat) (ps : List (Nat × Nat)) :
    Option (List (Nat × Nat)) :=
  if rank ≤ ps.countP (fun p => p.1 == 0 && p.2 == 0) then
    none
  else
    some ps

/-- Full `output_padding` / `output_cropping` inference of the
transposed `build` methods when `output_mshape` is set. -/
def inferPadCrop (rank : Nat) (mshape ishape strides dilation : List Int) :
    Option (List (Nat × Nat)) × Option (List (Nat × Nat)) :=
  let axes := inferAxes mshape ishape strides dilation
  (deFlagCollapse rank (axes.map Prod.fst),
   deFlagCollapse rank (axes.map Prod.snd))

/-- Modelled from the spec (claim wording): per-axis inference of
C2 — `diff = output_mshape[i] - input_shape[i] * max(strides[i],
dilation_rate[i])`; if `diff > 0` the padding is
`(diff div 2, diff div 2 + diff mod 2)` and the cropping `(0,0)`;
if `diff < 0` the cropping is `(|diff| div 2, |diff| div 2 + |diff| mod 2)`
and the padding `(0,0)`; if `diff = 0` both are `(0,0)`. -/
def specInferAxis (m i s d : Int) : (Nat × Nat) × (Nat × Nat) :=
  let diff : Int := m - i * max s d
  if 0 < diff then
    (((diff.toNat) / 2, (diff.toNat) / 2 + (diff.toNat) % 2), (0, 0))
  else if diff < 0 then
    ((0, 0), (((-diff).toNat) / 2, ((-diff).toNat) / 2 + ((-diff).toNat) % 2))
  else
    ((0, 0), (0, 0))

/-- Modelled from the spec (claim wording): the axis-wise map of
`specInferAxis` over the spatial axes. -/
def specInferAxes : List Int → List Int → List Int → List Int →
    List ((Nat × Nat) × (Nat × Nat))
  | m :: ms, i :: is, s :: ss, d :: ds =>
      specInferAxis m i s d :: specInferAxes ms is ss ds
  | _, _, _, _ => []

/-- Modelled from the spec (claim wording): the whole padding
(cropping) list is replaced by `None` exactly when the inferred
pair is `(0, 0)` on every axis. -/
def specCollapse (ps : List (Nat × Nat)) : Option (List (Nat × Nat)) :=
  if ps.all (fun p => p.1 == 0 && p.2 == 0) then none else some ps

/-- Modelled from the spec (claim wording): full C2 inference. -/
def specInferPadCrop (mshape ishape strides dilation : List Int) :
    Option (List (Nat × Nat)) × Option (List (Nat × Nat)) :=
  let axes := specInferAxes mshape ishape strides dilation
  (specCollapse (axes.map Prod.fst), specCollapse (axes.map Prod.snd))

lemma inferAxes_eq_spec (m i s d : List Int) :
    inferAxes m i s d = specInferAxes m i s d := by
  induction m generalizing i s d with
  | nil => cases i <;> cases s <;> cases d <;> rfl
  | cons mh mt ih =>
      cases i with
      | nil => cases s <;> cases d <;> rfl
      | cons ih2 it =>
          cases s with
          | nil => cases d <;> rfl
          | cons sh st =>
              cases d with
              | nil => rfl
              | cons dh dt =>
                  simp only [inferAxes, specInferAxes, ih]
                  rfl

lemma inferAxes_length (m i s d : List Int)
    (hi : i.length = m.length) (hs : s.length = m.length)
    (hd : d.length = m.length) :
    (inferAxes m i s d).length = m.length := by
  induction m generalizing i s d with
  | nil => cases i <;> cases s <;> cases d <;> simp_all [inferAxes]
  | cons mh mt ih =>
      cases i with
      | nil => simp at hi
      | cons ih2 it =>
          cases s with
          | nil => simp at hs
          | cons sh st =>
              cases d with
              | nil => simp at hd
              | cons dh dt =>
                  simp only [inferAxes, List.length_cons]
                  simp only [List.length_cons] at hi hs hd
                  rw [ih it st dt (by omega) (by omega) (by omega)]

lemma deFlagCollapse_eq_spec (rank : Nat) (ps : List (Nat × Nat))
    (h : ps.length = rank) :
    deFlagCollapse rank ps = specCollapse ps := by
  subst h
  unfold deFlagCollapse specCollapse
  by_cases hall : ps.all (fun p => p.1 == 0 && p.2 == 0)
  · have hcount : ps.countP (fun p => p.1 == 0 && p.2 == 0) = ps.length := by
      rw [List.countP_eq_length]
      intro a ha
      exact (List.all_eq_true.mp hall) a ha
    simp [hall, hcount]
  · have hle : ps.countP (fun p => p.1 == 0 && p.2 == 0) ≤ ps.length :=
      List.countP_le_length _
    have hne : ps.countP (fun p => p.1 == 0 && p.2 == 0) ≠ ps.length := by
      intro hEq
      exact hall (List.all_eq_true.mpr fun a ha =>
        List.countP_eq_length.mp hEq a ha)
    rw [if_neg (by omega), if_neg hall]

/-- State stored by a successful block constructor; fields that one
class does not have (`lgroups` outside ResNeXt, the `output_*`
fields outside the transposed classes) are kept at their neutral
value.  `depth` holds `self.depth`, the internal middle-unit count
set to `depth - 2` by every constructor. -/
structure InitState where
  rank : Nat
  depth : Int
  ofilters : Int
  lgroups : Option Int
  lfilters : Option Int
  kernelSize : List Int
  strides : List Int
  dilationRate : List Int
  dataFormat : DataFormat
  outputMshape : Option (List Int)
  outputPadding : Option (List (Nat × Nat))
  outputCropping : Option (List (Nat × Nat))
deriving DecidableEq, Repr

/-- Message of the depth check of `_Residual.__init__` and
`_ResidualTranspose.__init__`. -/
def depthMsgResidual : String := "The depth of the residual block should be >= 3."

/-- Message of the depth check of `_Resnext.__init__` and
`_ResnextTranspose.__init__`. -/
def depthMsgResnext : String := "The depth of the ResNeXt block should be >= 3."

/-- Message of the strides/dilation check shared by all four
constructors. -/
def dilMsg : String := "Does not support dilation_rate when strides > 1."

/-- Message of the 1D/`channels_first` check of the transposed
constructors. -/
def fmtMsg : String := "Does not support channels_first data format for 1D case due to the limitation of upsampling method."

/-- Source `_Residual.__init__` (the fallible part): stores
`self.depth = depth - 2` and raises when it is `< 1`; then, with
the normalized tuples, raises when some dilation entry and some
stride entry are both different from 1.  The tuples are taken
already normalized to length `rank`. -/
def residualInit (rank : Nat) (depth ofilters : Int) (lfilters : Option Int)
    (kernelSize strides dilationRate : List Int) (dataFormat : DataFormat) :
    Except String InitState :=
  let d := depth - 2
  if d < 1 then .error depthMsgResidual
  else if ¬ checkDlFunc dilationRate ∧ ¬ checkDlFunc strides then .error dilMsg
  else .ok ⟨rank, d, ofilters, none, lfilters, kernelSize, strides,
            dilationRate, dataFormat, none, none, none⟩

/-- Source `_ResidualTranspose.__init__` (the fallible part): the
depth check, then the storage of `output_padding` /
`output_mshape` / `output_cropping` (with Python truthiness on the
latter two: an empty list stays `None`), then the
1D/`channels_first` check, then the strides/dilation check. -/
def residualTransposeInit (rank : Nat) (depth ofilters : Int)
    (lfilters : Option Int) (kernelSize strides dilationRate : List Int)
    (outputMshape : Option (List Int))
    (outputPadding : Option (List (Nat × Nat)))
    (outputCropping : Option (List (Nat × Nat)))
    (dataFormat : DataFormat) :
    Except String InitState :=
  let d := depth - 2
  if d < 1 then .error depthMsgResidual
  else
    let mshape := match outputMshape with
      | some [] => none
      | x => x
    let cropping := match outputCropping with
      | some [] => none
      | x => x
    if rank = 1 ∧ dataFormat = DataFormat.channelsFirst then .error fmtMsg
    else if ¬ checkDlFunc dilationRate ∧ ¬ checkDlFunc strides then .error dilMsg
    else .ok ⟨rank, d, ofilters, none, lfilters, kernelSize, strides,
              dilationRate, dataFormat, mshape, outputPadding, cropping⟩

/-- Source `_Resnext.__init__` (the fallible part): as
`_Residual.__init__`, with `lgroups` stored as well. -/
def resnextInit (rank : Nat) (depth ofilters : Int)
    (lgroups lfilters : Option Int)
    (kernelSize strides dilationRate : List Int) (dataFormat : DataFormat) :
    Except String InitState :=
  let d := depth - 2
  if d < 1 then .error depthMsgResnext
  else if ¬ checkDlFunc dilationRate ∧ ¬ checkDlFunc strides then .error dilMsg
  else .ok ⟨rank, d, ofilters, lgroups, lfilters, kernelSize, strides,
            dilationRate, dataFormat, none, none, none⟩

/-- Source `_ResnextTranspose.__init__` (the fallible part): as
`_ResidualTranspose.__init__`, with `lgroups` stored as well. -/
def resnextTransposeInit (rank : Nat) (depth ofilters : Int)
    (lgroups lfilters : Option Int)
    (kernelSize strides dilationRate : List Int)
    (outputMshape : Option (List Int))
    (outputPadding : Option (List (Nat × Nat)))
    (outputCropping : Option (List (Nat × Nat)))
    (dataFormat : DataFormat) :
    Except String InitState :=
  let d := depth - 2
  if d < 1 then .error depthMsgResnext
  else
    let mshape := match outputMshape with
      | some [] => none
      | x => x
    let cropping := match outputCropping with
      | some [] => none
      | x => x
    if rank = 1 ∧ dataFormat = DataFormat.channelsFirst then .error fmtMsg
    else if ¬ checkDlFunc dilationRate ∧ ¬ checkDlFunc strides then .error dilMsg
    else .ok ⟨rank, d, ofilters, lgroups, lfilters, kernelSize, strides,
              dilationRate, dataFormat, mshape, outputPadding, cropping⟩

/-- The `'depth': self.depth + 2` entry written by every
`get_config` method. -/
def getConfigDepth (st : InitState) : Int :=
  st.depth + 2

/-- A tensor shape: spatial entries (one per axis) plus the channel
count.  The batch axis is irrelevant to every claim and omitted. -/
structure Shape where
  spatial : List Int
  channels : Int
deriving DecidableEq, Repr

/-- Descriptor of one convolutional sub-layer (`NACUnit` or
`_AConv`) as constructed by the `build` methods: its `filters`,
normalized `kernel_size`, `strides` and `dilation_rate`, and the
ResNeXt convolution group count `lgroups` (`none` when the unit is
ungrouped, i.e. when `build` passes no `lgroups`). -/
structure ConvUnit where
  filters : Int
  kernelSize : List Int
  strides : List Int
  dilationRate : List Int
  lgroups : Option Int
deriving DecidableEq, Repr

/-- The deterministic sub-layer chain assembled by a `build`
method: optional upsampling (transposed blocks), optional zero
padding, optional left-branch projection (`_AConv`), optional
dropout, the first/middle/last `NACUnit`s, optional cropping. -/
structure BlockBuilt where
  upsampleSize : Option (List Int)
  outputPadding : Option (List (Nat × Nat))
  branchLeft : Option ConvUnit
  hasDropout : Bool
  layerFirst : ConvUnit
  layerMiddles : List ConvUnit
  layerLast : ConvUnit
  outputCropping : Option (List (Nat × Nat))
deriving DecidableEq, Repr

/-- Modelled from the spec: output length of a `same`-padded
convolution along one axis, `ceil(x / s)` for a positive stride
`s` (keras `conv_utils.conv_output_length` with padding `same`;
`NACUnit` and `_AConv` are thin wrappers around it and are not in
the sources). -/
def ceilDiv (x s : Int) : Int :=
  (x + s - 1) / s

/-- Modelled from the spec: shape transformation of a `NACUnit` /
`_AConv` with `same` padding — every spatial axis is divided
(rounding up) by the stride and the channel count becomes
`filters`; kernel size, dilation and groups leave the shape
unchanged. -/
def unitOutShape (u : ConvUnit) (s : Shape) : Shape :=
  ⟨List.zipWith ceilDiv s.spatial u.strides, u.filters⟩

/-- Modelled from the spec: `UpSampling1D/2D/3D` multiplies each
spatial axis by its factor. -/
def upsampleShape (size : List Int) (s : Shape) : Shape :=
  ⟨List.zipWith (fun x z => x * z) s.spatial size, s.channels⟩

/-- Modelled from the spec: `ZeroPadding1D/2D/3D` adds the two
padding amounts of each axis. -/
def padShape (p : List (Nat × Nat)) (s : Shape) : Shape :=
  ⟨List.zipWith (fun x q => x + (q.1 : Int) + (q.2 : Int)) s.spatial p, s.channels⟩

/-- Modelled from the spec: `Cropping1D/2D/3D` subtracts the two
cropping amounts of each axis. -/
def cropShape (c : List (Nat × Nat)) (s : Shape) : Shape :=
  ⟨List.zipWith (fun x q => x - (q.1 : Int) - (q.2 : Int)) s.spatial c, s.channels⟩

/-- Modelled from the spec: the `Add` merge of two equal-shaped
branches returns that common shape (the right branch shape is
taken; claim C7 proves the two coincide). -/
def mergeShape (_l r : Shape) : Shape :=
  r

/-- Shape entering both branches: the input after the optional
upsampling and zero padding (the plain blocks have neither). -/
def blockInShape (b : BlockBuilt) (s : Shape) : Shape :=
  let s1 := match b.upsampleSize with
    | some z => upsampleShape z s
    | none => s
  match b.outputPadding with
  | some p => padShape p s1
  | none => s1

/-- Shape produced by the left (projection or identity) branch,
exactly as `build` threads `left_shape`. -/
def blockLeftShape (b : BlockBuilt) (s : Shape) : Shape :=
  match b.branchLeft with
  | some u => unitOutShape u (blockInShape b s)
  | none => blockInShape b s

/-- Shape produced by the right (convolutional) branch, exactly as
`build` threads `right_shape` (the dropout layer keeps the shape). -/
def blockRightShape (b : BlockBuilt) (s : Shape) : Shape :=
  let r1 := unitOutShape b.layerFirst (blockInShape b s)
  let r2 := b.layerMiddles.foldl (fun sh u => unitOutShape u sh) r1
  unitOutShape b.layerLast r2

/-- Shape returned by `compute_output_shape` (and of the tensor
returned by `call`): the merged branch shape, cropped when a
cropping layer exists. -/
def blockOutputShape (b : BlockBuilt) (s : Shape) : Shape :=
  let merged := mergeShape (blockLeftShape b s) (blockRightShape b s)
  match b.outputCropping with
  | some c => cropShape c merged
  | none => merged

/-- Structure assembled by `_Residual.build`: `lfilters` defaults
to `max(1, channelIn // 2)`; the left branch is skipped iff the
strides are all 1 and `ofilters` equals the input channel count;
the first unit is a 1x1 `NACUnit` with `lfilters` filters carrying
the block strides; the `self.depth` middle units carry
`kernel_size` at stride 1 (only the first carries
`dilation_rate`); the last unit is a 1x1 `NACUnit` with `ofilters`
filters.  `depth` is the stored `self.depth` (constructor argument
minus 2), `hasDropout` whether `return_dropout` produced a layer. -/
def residualBuildUnits (rank depth : Nat) (ofilters : Int)
    (lfiltersOpt : Option Int) (kernelSize strides dilationRate : List Int)
    (channelIn : Int) (hasDropout : Bool) : BlockBuilt :=
  let lfilters := lfiltersOpt.getD (max 1 (Int.fdiv channelIn 2))
  { upsampleSize := none
    outputPadding := none
    branchLeft :=
      if checkDlFunc strides && ofilters == channelIn then none
      else some ⟨ofilters, onesL rank, strides, onesL rank, none⟩
    hasDropout
    layerFirst := ⟨lfilters, onesL rank, strides, onesL rank, none⟩
    layerMiddles := (List.range depth).map fun i =>
      ⟨lfilters, kernelSize, onesL rank,
       if i = 0 then dilationRate else onesL rank, none⟩
    layerLast := ⟨ofilters, onesL rank, onesL rank, onesL rank, none⟩
    outputCropping := none }

/-- Structure assembled by `_ResidualTranspose.build` once the
padding/cropping pair is known: upsampling by `strides`, every
convolution (projection, first, middle, last) at stride 1, and the
left branch skipped iff `ofilters` equals the input channel
count. -/
def residualTransposeBuildUnits (rank depth : Nat) (ofilters : Int)
    (lfiltersOpt : Option Int) (kernelSize strides dilationRate : List Int)
    (channelIn : Int) (hasDropout : Bool)
    (pad crop : Option (List (Nat × Nat))) : BlockBuilt :=
  let lfilters := lfiltersOpt.getD (max 1 (Int.fdiv channelIn 2))
  { upsampleSize := some strides
    outputPadding := pad
    branchLeft :=
      if ofilters == channelIn then none
      else some ⟨ofilters, onesL rank, onesL rank, onesL rank, none⟩
    hasDropout
    layerFirst := ⟨lfilters, onesL rank, onesL rank, onesL rank, none⟩
    layerMiddles := (List.range depth).map fun i =>
      ⟨lfilters, kernelSize, onesL rank,
       if i = 0 then dilationRate else onesL rank, none⟩
    layerLast := ⟨ofilters, onesL rank, onesL rank, onesL rank, none⟩
    outputCropping := crop }

/-- Message for the failing construction
`ZeroPadding1D(padding=self.output_padding)[0]` in the rank-1 path
of the transposed `build` methods: `padding` is the nested tuple
`((a, b),)` which `ZeroPadding1D` rejects, and the subscript `[0]`
applied to a layer object is itself invalid. -/
def pad1dMsg : String := "rank-1 zero padding construction fails"

/-- Message for the failing construction
`Cropping1D(cropping=self.output_cropping)[0]` in the rank-1 path
of the transposed `build` methods. -/
def crop1dMsg : String := "rank-1 cropping construction fails"

/-- Message of the rank dispatch of the transposed `build`
methods. -/
def rankMsg : String := "Rank of the deconvolution should be 1, 2 or 3."

/-- Python slice `l[1:-1]`: the transposed `build` methods apply
it to the stored `output_mshape` (a full shape list, batch entry
included) to obtain `l_output_mshape`. -/
def sliceFull (l : List Int) : List Int :=
  (l.drop 1).dropLast

/-- Slice `input_shape.as_list()[1:-1]` of the input's full shape,
expressed on its `(spatial, channels)` decomposition: the full
shape is `batch :: spatial ++ [channels]` for `channels_last` and
`batch :: channels :: spatial` for `channels_first`, so the slice
is the spatial list in the first case and the channel count
followed by all but the last spatial entry in the second — the
source slices `[1:-1]` regardless of the data format. -/
def sliceShape (fmt : DataFormat) (spatial : List Int) (channels : Int) :
    List Int :=
  match fmt with
  | .channelsLast => spatial
  | .channelsFirst => channels :: spatial.dropLast

lemma sliceFull_channelsLast (batch channels : Int) (spatial : List Int) :
    sliceFull (batch :: spatial ++ [channels]) = spatial := by
  simp [sliceFull]

/-- Source `_ResidualTranspose.build`: when `output_mshape` is set
the padding/cropping pair is inferred from the `[1:-1]` slices of
the stored `output_mshape` (a full shape list) and of the input
shape, otherwise the constructor-stored values are used; rank must
be 1, 2 or 3; in the rank-1 case a nonempty padding (cropping)
makes the build raise, because of the invalid
`ZeroPadding1D(...)[0]` (`Cropping1D(...)[0]`) expressions. -/
def residualTransposeBuild (rank depth : Nat) (ofilters : Int)
    (lfiltersOpt : Option Int) (kernelSize strides dilationRate : List Int)
    (outputMshape : Option (List Int))
    (outputPadding0 outputCropping0 : Option (List (Nat × Nat)))
    (dataFormat : DataFormat)
    (inputSpatial : List Int) (channelIn : Int) (hasDropout : Bool) :
    Except String BlockBuilt :=
  let pc := match outputMshape with
    | some ms => inferPadCrop rank (sliceFull ms)
        (sliceShape dataFormat inputSpatial channelIn) strides dilationRate
    | none => (outputPadding0, outputCropping0)
  if ¬ (rank = 1 ∨ rank = 2 ∨ rank = 3) then .error rankMsg
  else if rank = 1 ∧ pc.1.isSome then .error pad1dMsg
  else if rank = 1 ∧ pc.2.isSome then .error crop1dMsg
  else .ok (residualTransposeBuildUnits rank depth ofilters lfiltersOpt
    kernelSize strides dilationRate channelIn hasDropout pc.1 pc.2)

/-- Structure assembled by `_Resnext.build` once `lgroups` and
`lfilters` are resolved (their inference is `resnextInferLatent`
below): the first unit is an ungrouped 1x1 `NACUnit` with
`lgroups * lfilters` filters carrying the block strides, the
middle units are grouped (`lgroups` groups) over
`lgroups * lfilters` channels with `kernel_size` at stride 1, and
the last unit is an ungrouped 1x1 `NACUnit` with `ofilters`
filters. -/
def resnextBuildUnits (rank depth : Nat) (ofilters lgroups lfilters : Int)
    (kernelSize strides dilationRate : List Int)
    (channelIn : Int) (hasDropout : Bool) : BlockBuilt :=
  let wholeLfilters := lgroups * lfilters
  { upsampleSize := none
    outputPadding := none
    branchLeft :=
      if checkDlFunc strides && ofilters == channelIn then none
      else some ⟨ofilters, onesL rank, strides, onesL rank, none⟩
    hasDropout
    layerFirst := ⟨wholeLfilters, onesL rank, strides, onesL rank, none⟩
    layerMiddles := (List.range depth).map fun i =>
      ⟨wholeLfilters, kernelSize, onesL rank,
       if i = 0 then dilationRate else onesL rank, some lgroups⟩
    layerLast := ⟨ofilters, onesL rank, onesL rank, onesL rank, none⟩
    outputCropping := none }

/-- Structure assembled by `_ResnextTranspose.build` once
`lgroups`/`lfilters` and the padding/cropping pair are known. -/
def resnextTransposeBuildUnits (rank depth : Nat)
    (ofilters lgroups lfilters : Int)
    (kernelSize strides dilationRate : List Int)
    (channelIn : Int) (hasDropout : Bool)
    (pad crop : Option (List (Nat × Nat))) : BlockBuilt :=
  let wholeLfilters := lgroups * lfilters
  { upsampleSize := some strides
    outputPadding := pad
    branchLeft :=
      if ofilters == channelIn then none
      else some ⟨ofilters, onesL rank, onesL rank, onesL rank, none⟩
    hasDropout
    layerFirst := ⟨wholeLfilters, onesL rank, onesL rank, onesL rank, none⟩
    layerMiddles := (List.range depth).map fun i =>
      ⟨wholeLfilters, kernelSize, onesL rank,
       if i = 0 then dilationRate else onesL rank, some lgroups⟩
    layerLast := ⟨ofilters, onesL rank, onesL rank, onesL rank, none⟩
    outputCropping := crop }

/-- Source `_ResnextTranspose.build`: padding/cropping inference
from the `[1:-1]` slices and rank dispatch, as in
`residualTransposeBuild`. -/
def resnextTransposeBuild (rank depth : Nat)
    (ofilters lgroups lfilters : Int)
    (kernelSize strides dilationRate : List Int)
    (outputMshape : Option (List Int))
    (outputPadding0 outputCropping0 : Option (List (Nat × Nat)))
    (dataFormat : DataFormat)
    (inputSpatial : List Int) (channelIn : Int) (hasDropout : Bool) :
    Except String BlockBuilt :=
  let pc := match outputMshape with
    | some ms => inferPadCrop rank (sliceFull ms)
        (sliceShape dataFormat inputSpatial channelIn) strides dilationRate
    | none => (outputPadding0, outputCropping0)
  if ¬ (rank = 1 ∨ rank = 2 ∨ rank = 3) then .error rankMsg
  else if rank = 1 ∧ pc.1.isSome then .error pad1dMsg
  else if rank = 1 ∧ pc.2.isSome then .error crop1dMsg
  else .ok (resnextTransposeBuildUnits rank depth ofilters lgroups lfilters
    kernelSize strides dilationRate channelIn hasDropout pc.1 pc.2)

/-- Source `_Residual.call` / `_Resnext.call`, abstracted over the
tensor type and the denotations of the primitive layers:
`branch_left` (projection or identity), then the right branch
dropout/first/middles/last, then the `Add` merge. -/
def plainCall {T : Type} (dUnit : ConvUnit → T → T) (dDrop : T → T)
    (dAdd : T → T → T) (b : BlockBuilt) (x : T) : T :=
  let left := match b.branchLeft with
    | some u => dUnit u x
    | none => x
  let r0 := if b.hasDropout then dDrop x else x
  let r1 := dUnit b.layerFirst r0
  let r2 := b.layerMiddles.foldl (fun t u => dUnit u t) r1
  dAdd left (dUnit b.layerLast r2)

/-- Source `_ResidualTranspose.call` / `_ResnextTranspose.call`:
upsampling, optional padding, both branches consuming the result,
the `Add` merge, and the optional cropping applied last. -/
def transposeCall {T : Type} (dUp : List Int → T → T)
    (dPad dCrop : List (Nat × Nat) → T → T)
    (dUnit : ConvUnit → T → T) (dDrop : T → T)
    (dAdd : T → T → T) (b : BlockBuilt) (x : T) : T :=
  let y0 := match b.upsampleSize with
    | some z => dUp z x
    | none => x
  let y := match b.outputPadding with
    | some p => dPad p y0
    | none => y0
  let left := match b.branchLeft with
    | some u => dUnit u y
    | none => y
  let r0 := if b.hasDropout then dDrop y else y
  let r1 := dUnit b.layerFirst r0
  let r2 := b.layerMiddles.foldl (fun t u => dUnit u t) r1
  let out := dAdd left (dUnit b.layerLast r2)
  match b.outputCropping with
  | some c => dCrop c out
  | none => out

/-- Source `_get_prod`: `reduce(lambda a,b:a*b, x)` over the
normalized `kernel_size` tuple (nonempty; the `TypeError` fallback
only fires for a scalar argument). -/
def getProd : List Int → Int
  | [] => 1
  | x :: xs => xs.foldl (fun a b => a * b) x

lemma getProd_eq_prod (l : List Int) : getProd l = l.prod := by
  cases l with
  | nil => rfl
  | cons x xs =>
      simp only [getProd, List.prod_cons]
      induction xs generalizing x with
      | nil => simp
      | cons y ys ih =>
          simp only [List.foldl_cons, List.prod_cons, ih]
          ring

/-- Source `_cal_quad_root = lambda a, b, c: (sqrt(b**2 - 4*a*c) - b)/(2*a)`;
Python float arithmetic is modelled over the reals. -/
noncomputable def calQuadRoot (a b c : ℝ) : ℝ :=
  (Real.sqrt (b ^ 2 - 4 * a * c) - b) / (2 * a)

/-- Latent inference shared verbatim by `_Resnext.build` and
`_ResnextTranspose.build`: when both `lgroups` and `lfilters` are
unset, `lgroups` becomes 32; an unset `lfilters` is then
`max(1, int(round(root)))` for the `_cal_quad_root` of
`a = self.depth * K * lgroups`,
`b = (channelIn + ofilters) * lgroups`,
`c = -cal * (channelIn + ofilters + self.depth * K * cal)` with
`cal = channelIn / 2` and `K = _get_prod(kernel_size)`; an unset
`lgroups` (with `lfilters` given) is
`max(1, int(round((cal / lfilters) * (self.depth * K * cal + channelIn + ofilters) / (self.depth * K * lfilters + channelIn + ofilters))))`.
`dd` is the stored `self.depth`. -/
noncomputable def resnextInferLatent (channelIn ofilters dd : Int)
    (kernelSize : List Int) (lgroups lfilters : Option Int) : Int × Int :=
  let kk : Int := getProd kernelSize
  match lgroups, lfilters with
  | some g, some f => (g, f)
  | none, none =>
      let g : Int := 32
      let cal : ℝ := (channelIn : ℝ) / 2
      let root := calQuadRoot ((dd * kk * g : Int) : ℝ)
        (((channelIn + ofilters) * g : Int) : ℝ)
        (-(cal * (((channelIn + ofilters : Int) : ℝ) + ((dd * kk : Int) : ℝ) * cal)))
      (g, max 1 (round root))
  | some g, none =>
      let cal : ℝ := (channelIn : ℝ) / 2
      let root := calQuadRoot ((dd * kk * g : Int) : ℝ)
        (((channelIn + ofilters) * g : Int) : ℝ)
        (-(cal * (((channelIn + ofilters : Int) : ℝ) + ((dd * kk : Int) : ℝ) * cal)))
      (g, max 1 (round root))
  | none, some f =>
      let cal0 : ℝ := (channelIn : ℝ) / 2
      let cal := (cal0 / (f : ℝ)) *
        (((dd * kk : Int) : ℝ) * cal0 + ((channelIn : ℝ) + (ofilters : ℝ))) /
        (((dd * kk : Int) : ℝ) * (f : ℝ) + ((channelIn : ℝ) + (ofilters : ℝ)))
      (max 1 (round cal), f)

/-- Modelled from the spec (claim wording of C3): with `cin` the
input channel count, `cout = ofilters`, `D` the middle-unit count
and `K` the product of the `kernel_size` entries — if both latent
counts are unset, `lgroups = 32`; an unset `lfilters` is
`max(1, round(x))` for `x = (-b + sqrt(b^2 - 4*a*c)) / (2*a)`,
the positive root of `a*x^2 + b*x + c = 0` with `a = D*K*lgroups`,
`b = (cin + cout)*lgroups`,
`c = -(cin/2)*(cin + cout + D*K*(cin/2))`; an unset `lgroups` is
`max(1, round((cin/2/lfilters)*(D*K*(cin/2) + cin + cout)/(D*K*lfilters + cin + cout)))`. -/
noncomputable def specResnextLatent (cin cout dd : Int)
    (kernelSize : List Int) (lgroups lfilters : Option Int) : Int × Int :=
  let kp : ℝ := ((kernelSize.prod : Int) : ℝ)
  match lgroups, lfilters with
  | some g, some f => (g, f)
  | none, none =>
      let a : ℝ := (dd : ℝ) * kp * (32 : ℝ)
      let b : ℝ := ((cin : ℝ) + (cout : ℝ)) * (32 : ℝ)
      let c : ℝ := -((cin : ℝ) / 2) *
        ((cin : ℝ) + (cout : ℝ) + (dd : ℝ) * kp * ((cin : ℝ) / 2))
      (32, max 1 (round ((-b + Real.sqrt (b ^ 2 - 4 * a * c)) / (2 * a))))
  | some g, none =>
      let a : ℝ := (dd : ℝ) * kp * (g : ℝ)
      let b : ℝ := ((cin : ℝ) + (cout : ℝ)) * (g : ℝ)
      let c : ℝ := -((cin : ℝ) / 2) *
        ((cin : ℝ) + (cout : ℝ) + (dd : ℝ) * kp * ((cin : ℝ) / 2))
      (g, max 1 (round ((-b + Real.sqrt (b ^ 2 - 4 * a * c)) / (2 * a))))
  | none, some f =>
      let x : ℝ := ((cin : ℝ) / 2 / (f : ℝ)) *
        ((dd : ℝ) * kp * ((cin : ℝ) / 2) + (cin : ℝ) + (cout : ℝ)) /
        ((dd : ℝ) * kp * (f : ℝ) + (cin : ℝ) + (cout : ℝ))
      (max 1 (round x), f)

lemma calQuadRoot_eq_posRoot (a b c a' b' c' : ℝ)
    (ha : a = a') (hb : b = b') (hc : c = c') :
    calQuadRoot a b c = (-b' + Real.sqrt (b' ^ 2 - 4 * a' * c')) / (2 * a') := by
  subst ha
  subst hb
  subst hc
  unfold calQuadRoot
  ring_nf

lemma residualInit_eq (rank : Nat) (depth ofilters : Int) (lf : Option Int)
    (ks ss ds : List Int) (fmt : DataFormat) :
    residualInit rank depth ofilters lf ks ss ds fmt =
      if depth - 2 < 1 then .error depthMsgResidual
      else if ¬ checkDlFunc ds ∧ ¬ checkDlFunc ss then .error dilMsg
      else .ok ⟨rank, depth - 2, ofilters, none, lf, ks, ss, ds, fmt,
                none, none, none⟩ := rfl

lemma residualTransposeInit_eq (rank : Nat) (depth ofilters : Int)
    (lf : Option Int) (ks ss ds : List Int) (mshape : Option (List Int))
    (op oc : Option (List (Nat × Nat))) (fmt : DataFormat) :
    residualTransposeInit rank depth ofilters lf ks ss ds mshape op oc fmt =
      if depth - 2 < 1 then .error depthMsgResidual
      else if rank = 1 ∧ fmt = DataFormat.channelsFirst then .error fmtMsg
      else if ¬ checkDlFunc ds ∧ ¬ checkDlFunc ss then .error dilMsg
      else .ok ⟨rank, depth - 2, ofilters, none, lf, ks, ss, ds, fmt,
                (match mshape with | some [] => none | x => x), op,
                (match oc with | some [] => none | x => x)⟩ := rfl

lemma resnextInit_eq (rank : Nat) (depth ofilters : Int) (lg lf : Option Int)
    (ks ss ds : List Int) (fmt : DataFormat) :
    resnextInit rank depth ofilters lg lf ks ss ds fmt =
      if depth - 2 < 1 then .error depthMsgResnext
      else if ¬ checkDlFunc ds ∧ ¬ checkDlFunc ss then .error dilMsg
      else .ok ⟨rank, depth - 2, ofilters, lg, lf, ks, ss, ds, fmt,
                none, none, none⟩ := rfl

lemma resnextTransposeInit_eq (rank : Nat) (depth ofilters : Int)
    (lg lf : Option Int) (ks ss ds : List Int) (mshape : Option (List Int))
    (op oc : Option (List (Nat × Nat))) (fmt : DataFormat) :
    resnextTransposeInit rank depth ofilters lg lf ks ss ds mshape op oc fmt =
      if depth - 2 < 1 then .error depthMsgResnext
      else if rank = 1 ∧ fmt = DataFormat.channelsFirst then .error fmtMsg
      else if ¬ checkDlFunc ds ∧ ¬ checkDlFunc ss then .error dilMsg
      else .ok ⟨rank, depth - 2, ofilters, lg, lf, ks, ss, ds, fmt,
                (match mshape with | some [] => none | x => x), op,
                (match oc with | some [] => none | x => x)⟩ := rfl

/-- C8 counterexample: a constructor call whose `depth` argument is
3 (so not `< 3`) that still raises `ValueError` — the
strides/dilation check fires — refuting the claimed "raises if and
only if depth < 3". -/
theorem claim_C8_counterexample :
    (residualInit 1 3 4 none [3] [2] [2] DataFormat.channelsLast).toOption
      = none ∧ ¬ ((3 : Int) < 3) := by
  constructor
  · rfl
  · decide

/-- C8 (amended): for each of the four block classes, the
constructor raises the depth `ValueError` if and only if the depth
argument is less than 3 (for depth at least 3 it may still raise
through the other argument checks); whenever construction
succeeds, the stored middle-unit count `self.depth` equals
`depth - 2` and is at least 1. -/
theorem claim_C8_depth_check (rank : Nat) (depth ofilters : Int)
    (lg lf : Option Int) (ks ss ds : List Int) (fmt : DataFormat)
    (mshape : Option (List Int)) (op oc : Option (List (Nat × Nat))) :
    ((residualInit rank depth ofilters lf ks ss ds fmt
        = .error depthMsgResidual) ↔ depth < 3) ∧
    (∀ st, residualInit rank depth ofilters lf ks ss ds fmt = .ok st →
        st.depth = depth - 2 ∧ 1 ≤ st.depth) ∧
    ((residualTransposeInit rank depth ofilters lf ks ss ds mshape op oc fmt
        = .error depthMsgResidual) ↔ depth < 3) ∧
    (∀ st, residualTransposeInit rank depth ofilters lf ks ss ds mshape op oc fmt
        = .ok st → st.depth = depth - 2 ∧ 1 ≤ st.depth) ∧
    ((resnextInit rank depth ofilters lg lf ks ss ds fmt
        = .error depthMsgResnext) ↔ depth < 3) ∧
    (∀ st, resnextInit rank depth ofilters lg lf ks ss ds fmt = .ok st →
        st.depth = depth - 2 ∧ 1 ≤ st.depth) ∧
    ((resnextTransposeInit rank depth ofilters lg lf ks ss ds mshape op oc fmt
        = .error depthMsgResnext) ↔ depth < 3) ∧
    (∀ st, resnextTransposeInit rank depth ofilters lg lf ks ss ds mshape op oc fmt
        = .ok st → st.depth = depth - 2 ∧ 1 ≤ st.depth) := by
  rw [residualInit_eq, residualTransposeInit_eq, resnextInit_eq,
    resnextTransposeInit_eq]
  refine ⟨?_, ?_, ?_, ?_, ?_, ?_, ?_, ?_⟩ <;>
    first
    | · constructor
        · intro h
          split at h
          · omega
          · split at h <;> first
              | (injection h with h'; exact absurd h' (by decide))
              | exact Except.noConfusion h
              | (split at h <;> first
                  | (injection h with h'; exact absurd h' (by decide))
                  | exact Except.noConfusion h)
        · intro h
          rw [if_pos (by omega)]
    | · intro st h
        split at h
        · exact Except.noConfusion h
        · split at h <;> first
            | exact Except.noConfusion h
            | (injection h with h'
               subst h'
               exact ⟨rfl, by
                 show (1 : Int) ≤ depth - 2
                 omega⟩)
            | (split at h <;> first
                | exact Except.noConfusion h
                | (injection h with h'
                   subst h'
                   exact ⟨rfl, by
                     show (1 : Int) ≤ depth - 2
                     omega⟩))

/-- C9: for each of the four block classes, once the depth check
(and, for the transposed classes, the data-format check) has
passed, the constructor raises the `ValueError`
"Does not support dilation_rate when strides > 1." exactly when
some normalized `dilation_rate` entry and some normalized
`strides` entry both differ from 1; when all entries of either
tuple are 1 the check passes and construction succeeds. -/
theorem claim_C9_dilation_check (rank : Nat) (depth ofilters : Int)
    (lg lf : Option Int) (ks ss ds : List Int) (fmt : DataFormat)
    (mshape : Option (List Int)) (op oc : Option (List (Nat × Nat)))
    (hdep : 3 ≤ depth) (hfmt : ¬ (rank = 1 ∧ fmt = DataFormat.channelsFirst)) :
    ((residualInit rank depth ofilters lf ks ss ds fmt = .error dilMsg) ↔
      (checkDlFunc ds = false ∧ checkDlFunc ss = false)) ∧
    ((checkDlFunc ds = true ∨ checkDlFunc ss = true) →
      ∃ st, residualInit rank depth ofilters lf ks ss ds fmt = .ok st) ∧
    ((residualTransposeInit rank depth ofilters lf ks ss ds mshape op oc fmt
        = .error dilMsg) ↔
      (checkDlFunc ds = false ∧ checkDlFunc ss = false)) ∧
    ((checkDlFunc ds = true ∨ checkDlFunc ss = true) →
      ∃ st, residualTransposeInit rank depth ofilters lf ks ss ds mshape op oc fmt
        = .ok st) ∧
    ((resnextInit rank depth ofilters lg lf ks ss ds fmt = .error dilMsg) ↔
      (checkDlFunc ds = false ∧ checkDlFunc ss = false)) ∧
    ((checkDlFunc ds = true ∨ checkDlFunc ss = true) →
      ∃ st, resnextInit rank depth ofilters lg lf ks ss ds fmt = .ok st) ∧
    ((resnextTransposeInit rank depth ofilters lg lf ks ss ds mshape op oc fmt
        = .error dilMsg) ↔
      (checkDlFunc ds = false ∧ checkDlFunc ss = false)) ∧
    ((checkDlFunc ds = true ∨ checkDlFunc ss = true) →
      ∃ st, resnextTransposeInit rank depth ofilters lg lf ks ss ds mshape op oc fmt
        = .ok st) := by
  rw [residualInit_eq, residualTransposeInit_eq, resnextInit_eq,
    resnextTransposeInit_eq]
  rw [if_neg (by omega : ¬ (depth - 2 < 1)), if_neg (by omega : ¬ (depth - 2 < 1)),
    if_neg (by omega : ¬ (depth - 2 < 1)), if_neg (by omega : ¬ (depth - 2 < 1)),
    if_neg hfmt, if_neg hfmt]
  refine ⟨?_, ?_, ?_, ?_, ?_, ?_, ?_, ?_⟩ <;>
    first
    | · constructor
        · intro h
          by_cases hc : ¬ (checkDlFunc ds = true) ∧ ¬ (checkDlFunc ss = true)
          · exact ⟨by simpa using hc.1, by simpa using hc.2⟩
          · rw [if_neg hc] at h
            exact Except.noConfusion h
        · intro hc
          rw [if_pos ⟨by simp [hc.1], by simp [hc.2]⟩]
    | · intro hor
        rw [if_neg (by rcases hor with h | h <;> simp [h])]
        exact ⟨_, rfl⟩

/-- C10: for each of the four block classes, a successful
construction stores `self.depth = depth - 2`, `get_config` reports
`'depth': self.depth + 2 = depth`, and re-constructing from the
reported depth yields the same internal middle-unit count — the
construct-then-serialize round trip is the identity on `depth`. -/
theorem claim_C10_depth_roundtrip (rank : Nat) (depth ofilters : Int)
    (lg lf : Option Int) (ks ss ds : List Int) (fmt : DataFormat)
    (mshape : Option (List Int)) (op oc : Option (List (Nat × Nat))) :
    (∀ st, residualInit rank depth ofilters lf ks ss ds fmt = .ok st →
      getConfigDepth st = depth ∧
      ∀ st', residualInit rank (getConfigDepth st) ofilters lf ks ss ds fmt
          = .ok st' → st'.depth = st.depth) ∧
    (∀ st, residualTransposeInit rank depth ofilters lf ks ss ds mshape op oc fmt
        = .ok st →
      getConfigDepth st = depth ∧
      ∀ st', residualTransposeInit rank (getConfigDepth st) ofilters lf ks ss ds
          mshape op oc fmt = .ok st' → st'.depth = st.depth) ∧
    (∀ st, resnextInit rank depth ofilters lg lf ks ss ds fmt = .ok st →
      getConfigDepth st = depth ∧
      ∀ st', resnextInit rank (getConfigDepth st) ofilters lg lf ks ss ds fmt
          = .ok st' → st'.depth = st.depth) ∧
    (∀ st, resnextTransposeInit rank depth ofilters lg lf ks ss ds mshape op oc fmt
        = .ok st →
      getConfigDepth st = depth ∧
      ∀ st', resnextTransposeInit rank (getConfigDepth st) ofilters lg lf ks ss
          ds mshape op oc fmt = .ok st' → st'.depth = st.depth) := by
  refine ⟨?_, ?_, ?_, ?_⟩
  · intro st h
    rw [residualInit_eq] at h
    by_cases h1 : depth - 2 < 1
    · rw [if_pos h1] at h
      exact Except.noConfusion h
    · rw [if_neg h1] at h
      by_cases h2 : ¬ checkDlFunc ds = true ∧ ¬ checkDlFunc ss = true
      · rw [if_pos h2] at h
        exact Except.noConfusion h
      · rw [if_neg h2] at h
        injection h with h'
        subst h'
        have hd : getConfigDepth (⟨rank, depth - 2, ofilters, none, lf, ks, ss,
            ds, fmt, none, none, none⟩ : InitState) = depth := by
          show depth - 2 + 2 = depth
          omega
        refine ⟨hd, ?_⟩
        intro st' h'
        rw [hd, residualInit_eq, if_neg h1, if_neg h2] at h'
        injection h' with h''
        subst h''
        rfl
  · intro st h
    rw [residualTransposeInit_eq] at h
    by_cases h1 : depth - 2 < 1
    · rw [if_pos h1] at h
      exact Except.noConfusion h
    · rw [if_neg h1] at h
      by_cases h3 : rank = 1 ∧ fmt = DataFormat.channelsFirst
      · rw [if_pos h3] at h
        exact Except.noConfusion h
      · rw [if_neg h3] at h
        by_cases h2 : ¬ checkDlFunc ds = true ∧ ¬ checkDlFunc ss = true
        · rw [if_pos h2] at h
          exact Except.noConfusion h
        · rw [if_neg h2] at h
          injection h with h'
          subst h'
          have hd : getConfigDepth (⟨rank, depth - 2, ofilters, none, lf, ks, ss,
              ds, fmt, (match mshape with | some [] => none | x => x), op,
              (match oc with | some [] => none | x => x)⟩ : InitState) = depth := by
            show depth - 2 + 2 = depth
            omega
          refine ⟨hd, ?_⟩
          intro st' h'
          rw [hd, residualTransposeInit_eq, if_neg h1, if_neg h3, if_neg h2] at h'
          injection h' with h''
          subst h''
          rfl
  · intro st h
    rw [resnextInit_eq] at h
    by_cases h1 : depth - 2 < 1
    · rw [if_pos h1] at h
      exact Except.noConfusion h
    · rw [if_neg h1] at h
      by_cases h2 : ¬ checkDlFunc ds = true ∧ ¬ checkDlFunc ss = true
      · rw [if_pos h2] at h
        exact Except.noConfusion h
      · rw [if_neg h2] at h
        injection h with h'
        subst h'
        have hd : getConfigDepth (⟨rank, depth - 2, ofilters, lg, lf, ks, ss,
            ds, fmt, none, none, none⟩ : InitState) = depth := by
          show depth - 2 + 2 = depth
          omega
        refine ⟨hd, ?_⟩
        intro st' h'
        rw [hd, resnextInit_eq, if_neg h1, if_neg h2] at h'
        injection h' with h''
        subst h''
        rfl
  · intro st h
    rw [resnextTransposeInit_eq] at h
    by_cases h1 : depth - 2 < 1
    · rw [if_pos h1] at h
      exact Except.noConfusion h
    · rw [if_neg h1] at h
      by_cases h3 : rank = 1 ∧ fmt = DataFormat.channelsFirst
      · rw [if_pos h3] at h
        exact Except.noConfusion h
      · rw [if_neg h3] at h
        by_cases h2 : ¬ checkDlFunc ds = true ∧ ¬ checkDlFunc ss = true
        · rw [if_pos h2] at h
          exact Except.noConfusion h
        · rw [if_neg h2] at h
          injection h with h'
          subst h'
          have hd : getConfigDepth (⟨rank, depth - 2, ofilters, lg, lf, ks, ss,
              ds, fmt, (match mshape with | some [] => none | x => x), op,
              (match oc with | some [] => none | x => x)⟩ : InitState) = depth := by
            show depth - 2 + 2 = depth
            omega
          refine ⟨hd, ?_⟩
          intro st' h'
          rw [hd, resnextTransposeInit_eq, if_neg h1, if_neg h3, if_neg h2] at h'
          injection h' with h''
          subst h''
          rfl

theorem claim_C8_depth_check_witness :
    residualInit 1 5 4 none [3] [1] [1] DataFormat.channelsLast =
      .ok ⟨1, 3, 4, none, none, [3], [1], [1], DataFormat.channelsLast,
           none, none, none⟩ ∧
    (3 : Int) = 5 - 2 ∧ (1 : Int) ≤ 3 := by
  have h := (claim_C8_depth_check 1 5 4 none none [3] [1] [1]
      DataFormat.channelsLast none none none).2.1
      ⟨1, 3, 4, none, none, [3], [1], [1], DataFormat.channelsLast,
        none, none, none⟩ rfl
  exact ⟨rfl, h.1, h.2⟩

theorem claim_C9_dilation_check_witness :
    residualInit 2 4 4 none [3, 3] [2, 2] [2, 2] DataFormat.channelsLast
      = .error dilMsg ∧
    checkDlFunc [2, 2] = false := by
  have h := (claim_C9_dilation_check 2 4 4 none none [3, 3] [2, 2] [2, 2]
      DataFormat.channelsLast none none none (by decide) (by decide)).1
  exact ⟨h.mpr ⟨by decide, by decide⟩, by decide⟩

theorem claim_C10_depth_roundtrip_witness :
    getConfigDepth ⟨1, 3, 4, none, none, [3], [1], [1],
      DataFormat.channelsLast, none, none, none⟩ = 5 := by
  have h := (claim_C10_depth_roundtrip 1 5 4 none none [3] [1] [1]
      DataFormat.channelsLast none none none).1
      ⟨1, 3, 4, none, none, [3], [1], [1], DataFormat.channelsLast,
        none, none, none⟩ rfl
  exact h.1

lemma inferPadCrop_eq_spec (rank : Nat)
    (mshape ishape strides dilation : List Int)
    (hm : mshape.length = rank) (hi : ishape.length = rank)
    (hs : strides.length = rank) (hd : dilation.length = rank) :
    inferPadCrop rank mshape ishape strides dilation =
      specInferPadCrop mshape ishape strides dilation := by
  have hlen : (inferAxes mshape ishape strides dilation).length = rank := by
    rw [inferAxes_length mshape ishape strides dilation (by omega) (by omega)
      (by omega)]
    exact hm
  show (deFlagCollapse rank
          ((inferAxes mshape ishape strides dilation).map Prod.fst),
        deFlagCollapse rank
          ((inferAxes mshape ishape strides dilation).map Prod.snd)) =
       (specCollapse ((specInferAxes mshape ishape strides dilation).map Prod.fst),
        specCollapse ((specInferAxes mshape ishape strides dilation).map Prod.snd))
  rw [← inferAxes_eq_spec]
  rw [deFlagCollapse_eq_spec rank _ (by rw [List.length_map]; exact hlen),
    deFlagCollapse_eq_spec rank _ (by rw [List.length_map]; exact hlen)]

/-- C2 counterexample: a channels_first transposed build (rank 2,
input full shape `(None, 4, 5, 7)`, `output_mshape`
`(None, 4, 10, 14)`, strides `(2,2)`, dilation `(1,1)`) succeeds,
and the source's `[1:-1]` slices make it infer the cropping pairs
`((2,2),(0,0))` (from the channel count and the leading spatial
entry), while the claimed per-spatial-axis formula yields no
padding and no cropping at all (`None`/`None`). -/
theorem claim_C2_counterexample :
    ((residualTransposeBuild 2 1 4 (some 2) [3, 3] [2, 2] [1, 1]
        (some [1, 4, 10, 14]) none none DataFormat.channelsFirst [5, 7] 4
        false).map (fun b => (b.outputPadding, b.outputCropping))).toOption
      = some (none, some [(2, 2), (0, 0)]) ∧
    specInferPadCrop [10, 14] [5, 7] [2, 2] [1, 1] = (none, none) := by
  exact ⟨rfl, by decide⟩

/-- C2 (amended): in every transposed build with `output_mshape`
set under the `channels_last` data format — where the source's
`[1:-1]` slices are exactly the spatial entries — the stored
`output_padding` and `output_cropping` follow the claimed
per-spatial-axis rule: with
`diff = output_mshape[i] - input_shape[i] * max(strides[i], dilation_rate[i])`,
a positive `diff` gives the padding pair
`(diff div 2, diff div 2 + diff mod 2)` and cropping `(0,0)`, a
negative one the analogous cropping pair and padding `(0,0)`, a
zero one `(0,0)`/`(0,0)`, and the whole padding (respectively
cropping) is replaced by `None` exactly when it is `(0,0)` on
every axis.  Under `channels_first` the diffs are instead computed
from the slice `(channels, leading spatial entries)`, as the
counterexample shows. -/
theorem claim_C2_padcrop_inference (rank depth : Nat) (ofilters : Int)
    (lfOpt : Option Int) (lgroups lfilters : Int)
    (ks strides dilation : List Int) (msSpatial inputSpatial : List Int)
    (batch msChannels channelIn : Int) (hdo : Bool)
    (op0 oc0 : Option (List (Nat × Nat)))
    (hm : msSpatial.length = rank) (hi : inputSpatial.length = rank)
    (hs : strides.length = rank) (hd : dilation.length = rank) :
    (∀ b, residualTransposeBuild rank depth ofilters lfOpt ks strides dilation
        (some (batch :: msSpatial ++ [msChannels])) op0 oc0
        DataFormat.channelsLast inputSpatial channelIn hdo = .ok b →
      (b.outputPadding, b.outputCropping) =
        specInferPadCrop msSpatial inputSpatial strides dilation) ∧
    (∀ b, resnextTransposeBuild rank depth ofilters lgroups lfilters ks strides
        dilation (some (batch :: msSpatial ++ [msChannels])) op0 oc0
        DataFormat.channelsLast inputSpatial channelIn hdo = .ok b →
      (b.outputPadding, b.outputCropping) =
        specInferPadCrop msSpatial inputSpatial strides dilation) := by
  have hkey : inferPadCrop rank
      (sliceFull (batch :: msSpatial ++ [msChannels]))
      (sliceShape DataFormat.channelsLast inputSpatial channelIn)
      strides dilation =
      specInferPadCrop msSpatial inputSpatial strides dilation := by
    rw [sliceFull_channelsLast]
    exact inferPadCrop_eq_spec rank msSpatial inputSpatial strides dilation
      hm hi hs hd
  constructor
  · intro b h
    simp only [residualTransposeBuild] at h
    split at h
    · exact Except.noConfusion h
    · split at h
      · exact Except.noConfusion h
      · split at h
        · exact Except.noConfusion h
        · injection h with h'
          subst h'
          exact hkey
  · intro b h
    simp only [resnextTransposeBuild] at h
    split at h
    · exact Except.noConfusion h
    · split at h
      · exact Except.noConfusion h
      · split at h
        · exact Except.noConfusion h
        · injection h with h'
          subst h'
          exact hkey

theorem claim_C2_padcrop_inference_witness :
    residualTransposeBuild 2 1 4 (some 2) [3, 3] [2, 1] [1, 1]
        (some [1, 8, 5, 4]) none none DataFormat.channelsLast [3, 5] 4 false =
      .ok (residualTransposeBuildUnits 2 1 4 (some 2) [3, 3] [2, 1] [1, 1] 4
        false (some [(1, 1), (0, 0)]) none) ∧
    (some [(1, 1), (0, 0)],
      (none : Option (List (Nat × Nat)))) =
      specInferPadCrop [8, 5] [3, 5] [2, 1] [1, 1] := by
  have hb : residualTransposeBuild 2 1 4 (some 2) [3, 3] [2, 1] [1, 1]
      (some [1, 8, 5, 4]) none none DataFormat.channelsLast [3, 5] 4 false =
      .ok (residualTransposeBuildUnits 2 1 4 (some 2) [3, 3] [2, 1] [1, 1] 4
        false (some [(1, 1), (0, 0)]) none) := rfl
  exact ⟨hb, (claim_C2_padcrop_inference 2 1 4 (some 2) 9 3 [3, 3] [2, 1]
    [1, 1] [8, 5] [3, 5] 1 4 4 false none none rfl rfl rfl rfl).1 _ hb⟩

/-- C3: the latent count inference shared by `_Resnext.build` and
`_ResnextTranspose.build` matches the claimed closed forms — when
both counts are unset `lgroups` becomes 32; an unset `lfilters` is
`max(1, round(x))` for the positive root
`x = (-b + sqrt(b^2 - 4*a*c))/(2*a)` of `a*x^2 + b*x + c = 0` with
`a = D*K*lgroups`, `b = (cin + cout)*lgroups`,
`c = -(cin/2)*(cin + cout + D*K*(cin/2))`; an unset `lgroups`
(with `lfilters` given) is
`max(1, round((cin/2/lfilters)*(D*K*(cin/2) + cin + cout)/(D*K*lfilters + cin + cout)))`
(`D` the middle-unit count, `K` the `kernel_size` product; Python
floats are modelled over the reals). -/
theorem claim_C3_latent_inference (cin cout dd : Int) (ks : List Int)
    (lg lf : Option Int) :
    resnextInferLatent cin cout dd ks lg lf =
      specResnextLatent cin cout dd ks lg lf := by
  cases lg with
  | none =>
      cases lf with
      | none =>
          simp only [resnextInferLatent, specResnextLatent, Prod.mk.injEq]
          refine ⟨trivial, ?_⟩
          congr 1
          congr 1
          refine calQuadRoot_eq_posRoot _ _ _ _ _ _ ?_ ?_ ?_
          · rw [getProd_eq_prod]
            push_cast
            ring
          · push_cast
            ring
          · rw [getProd_eq_prod]
            push_cast
            ring
      | some f =>
          simp only [resnextInferLatent, specResnextLatent, Prod.mk.injEq]
          refine ⟨?_, trivial⟩
          congr 1
          congr 1
          rw [getProd_eq_prod]
          push_cast
          ring
  | some g =>
      cases lf with
      | none =>
          simp only [resnextInferLatent, specResnextLatent, Prod.mk.injEq]
          refine ⟨trivial, ?_⟩
          congr 1
          congr 1
          refine calQuadRoot_eq_posRoot _ _ _ _ _ _ ?_ ?_ ?_
          · rw [getProd_eq_prod]
            push_cast
            ring
          · push_cast
            ring
          · rw [getProd_eq_prod]
            push_cast
            ring
      | some f => rfl

lemma checkDlFunc_iff (t : List Int) : checkDlFunc t = true ↔ ∀ x ∈ t, x = 1 := by
  simp [checkDlFunc]

lemma onesL_all_ones (n : Nat) : ∀ x ∈ onesL n, x = 1 := by
  simp [onesL]

lemma onesL_length (n : Nat) : (onesL n).length = n := by
  simp [onesL]

lemma ceilDiv_by_one (x : Int) : ceilDiv x 1 = x := by
  unfold ceilDiv
  omega

lemma zipWith_ceilDiv_allOnes (s t : List Int) (h : ∀ x ∈ t, x = 1)
    (hl : t.length = s.length) : List.zipWith ceilDiv s t = s := by
  induction s generalizing t with
  | nil => simp
  | cons x xs ih =>
      cases t with
      | nil => simp at hl
      | cons a ts =>
          have ha : a = 1 := h a (by simp)
          subst ha
          simp only [List.zipWith_cons_cons, ceilDiv_by_one]
          rw [ih ts (fun x hx => h x (by simp [hx])) (by simpa using hl)]

lemma unitOutShape_ones (u : ConvUnit) (sh : Shape)
    (h : ∀ x ∈ u.strides, x = 1) (hl : u.strides.length = sh.spatial.length) :
    unitOutShape u sh = ⟨sh.spatial, u.filters⟩ := by
  simp [unitOutShape, zipWith_ceilDiv_allOnes sh.spatial u.strides h hl]

lemma foldl_unitOutShape_spatial (us : List ConvUnit) (sh : Shape) (rank : Nat)
    (hsh : sh.spatial.length = rank)
    (h : ∀ u ∈ us, u.strides = onesL rank) :
    (us.foldl (fun t u => unitOutShape u t) sh).spatial = sh.spatial := by
  induction us generalizing sh with
  | nil => rfl
  | cons u ut ih =>
      have hu : u.strides = onesL rank := h u (by simp)
      have h1 : unitOutShape u sh = ⟨sh.spatial, u.filters⟩ :=
        unitOutShape_ones u sh (by rw [hu]; exact onesL_all_ones rank)
          (by rw [hu, onesL_length, hsh])
      simp only [List.foldl_cons, h1]
      exact ih ⟨sh.spatial, u.filters⟩ hsh (fun v hv => h v (by simp [hv]))

lemma merge_shapes_core (b : BlockBuilt) (s : Shape) (rank : Nat)
    (hin : (blockInShape b s).spatial.length = rank)
    (hmid : ∀ u ∈ b.layerMiddles, u.strides = onesL rank)
    (hlast : b.layerLast.strides = onesL rank)
    (hbranch :
      (b.branchLeft = none ∧ b.layerLast.filters = (blockInShape b s).channels ∧
        (∀ x ∈ b.layerFirst.strides, x = 1) ∧
        b.layerFirst.strides.length = rank) ∨
      (∃ u, b.branchLeft = some u ∧ u.strides = b.layerFirst.strides ∧
        u.filters = b.layerLast.filters ∧ b.layerFirst.strides.length = rank)) :
    blockLeftShape b s = blockRightShape b s ∧
    (blockLeftShape b s).channels = b.layerLast.filters := by
  rcases hbranch with ⟨hb, hch, hones, hlen⟩ | ⟨u, hb, hstr, hfil, hlen⟩
  · have hfirst : unitOutShape b.layerFirst (blockInShape b s) =
        ⟨(blockInShape b s).spatial, b.layerFirst.filters⟩ :=
      unitOutShape_ones _ _ hones (by rw [hlen, hin])
    have hfold : (b.layerMiddles.foldl (fun t v => unitOutShape v t)
        (⟨(blockInShape b s).spatial, b.layerFirst.filters⟩ : Shape)).spatial =
        (blockInShape b s).spatial :=
      foldl_unitOutShape_spatial _ _ rank hin hmid
    have hlast' : unitOutShape b.layerLast
        (b.layerMiddles.foldl (fun t v => unitOutShape v t)
          (⟨(blockInShape b s).spatial, b.layerFirst.filters⟩ : Shape)) =
        ⟨(blockInShape b s).spatial, b.layerLast.filters⟩ := by
      rw [unitOutShape_ones _ _ (by rw [hlast]; exact onesL_all_ones rank)
        (by rw [hlast, onesL_length, hfold, hin]), hfold]
    unfold blockLeftShape blockRightShape
    rw [hb, hfirst, hlast']
    constructor
    · show blockInShape b s =
        (⟨(blockInShape b s).spatial, b.layerLast.filters⟩ : Shape)
      rw [hch]
    · show (blockInShape b s).channels = b.layerLast.filters
      rw [hch]
  · have hfold : (b.layerMiddles.foldl (fun t v => unitOutShape v t)
        (unitOutShape b.layerFirst (blockInShape b s))).spatial =
        (unitOutShape b.layerFirst (blockInShape b s)).spatial := by
      refine foldl_unitOutShape_spatial _ _ rank ?_ hmid
      show (List.zipWith ceilDiv (blockInShape b s).spatial
        b.layerFirst.strides).length = rank
      rw [List.length_zipWith, hin, hlen]
      exact Nat.min_self rank
    have hlast' : unitOutShape b.layerLast
        (b.layerMiddles.foldl (fun t v => unitOutShape v t)
          (unitOutShape b.layerFirst (blockInShape b s))) =
        ⟨(unitOutShape b.layerFirst (blockInShape b s)).spatial,
          b.layerLast.filters⟩ := by
      rw [unitOutShape_ones _ _ (by rw [hlast]; exact onesL_all_ones rank)
        (by rw [hlast, onesL_length, hfold]
            show rank = (List.zipWith ceilDiv (blockInShape b s).spatial
              b.layerFirst.strides).length
            rw [List.length_zipWith, hin, hlen]
            exact (Nat.min_self rank).symm), hfold]
    unfold blockLeftShape blockRightShape
    rw [hb, hlast']
    constructor
    · show unitOutShape u (blockInShape b s) =
        (⟨(unitOutShape b.layerFirst (blockInShape b s)).spatial,
          b.layerLast.filters⟩ : Shape)
      unfold unitOutShape
      rw [hstr, hfil]
    · show u.filters = b.layerLast.filters
      exact hfil

lemma blockInShape_channels (b : BlockBuilt) (s : Shape) :
    (blockInShape b s).channels = s.channels := by
  unfold blockInShape
  cases b.upsampleSize <;> cases b.outputPadding <;> rfl

lemma blockInShape_length (b : BlockBuilt) (s : Shape) (rank : Nat)
    (hsl : s.spatial.length = rank)
    (hup : ∀ z, b.upsampleSize = some z → z.length = rank)
    (hpad : ∀ p, b.outputPadding = some p → p.length = rank) :
    (blockInShape b s).spatial.length = rank := by
  unfold blockInShape
  cases hz : b.upsampleSize with
  | none =>
      cases hp : b.outputPadding with
      | none => simpa using hsl
      | some p =>
          simp [padShape, List.length_zipWith, hsl, hpad p hp]
  | some z =>
      cases hp : b.outputPadding with
      | none =>
          simp [upsampleShape, List.length_zipWith, hsl, hup z hz]
      | some p =>
          simp [upsampleShape, padShape, List.length_zipWith, hsl,
            hup z hz, hpad p hp]

/-- C7: in every built residual or ResNeXt block, plain or
transposed, the two branch shapes handed to the `Add` merge are
equal, and their channel count is exactly `ofilters`.  The
transposed structures are taken for an arbitrary padding/cropping
pair of the block's rank, which covers every successfully built
block. -/
theorem claim_C7_merge_branch_shapes (rank depth : Nat)
    (ofilters lgroups lfilters : Int) (lfOpt : Option Int)
    (ks strides dil : List Int) (hdo : Bool) (s : Shape)
    (pad crop : Option (List (Nat × Nat)))
    (hsl : s.spatial.length = rank) (hss : strides.length = rank)
    (hpad : ∀ p, pad = some p → p.length = rank) :
    (blockLeftShape (residualBuildUnits rank depth ofilters lfOpt ks strides
        dil s.channels hdo) s =
      blockRightShape (residualBuildUnits rank depth ofilters lfOpt ks strides
        dil s.channels hdo) s ∧
     (blockLeftShape (residualBuildUnits rank depth ofilters lfOpt ks strides
        dil s.channels hdo) s).channels = ofilters) ∧
    (blockLeftShape (resnextBuildUnits rank depth ofilters lgroups lfilters ks
        strides dil s.channels hdo) s =
      blockRightShape (resnextBuildUnits rank depth ofilters lgroups lfilters ks
        strides dil s.channels hdo) s ∧
     (blockLeftShape (resnextBuildUnits rank depth ofilters lgroups lfilters ks
        strides dil s.channels hdo) s).channels = ofilters) ∧
    (blockLeftShape (residualTransposeBuildUnits rank depth ofilters lfOpt ks
        strides dil s.channels hdo pad crop) s =
      blockRightShape (residualTransposeBuildUnits rank depth ofilters lfOpt ks
        strides dil s.channels hdo pad crop) s ∧
     (blockLeftShape (residualTransposeBuildUnits rank depth ofilters lfOpt ks
        strides dil s.channels hdo pad crop) s).channels = ofilters) ∧
    (blockLeftShape (resnextTransposeBuildUnits rank depth ofilters lgroups
        lfilters ks strides dil s.channels hdo pad crop) s =
      blockRightShape (resnextTransposeBuildUnits rank depth ofilters lgroups
        lfilters ks strides dil s.channels hdo pad crop) s ∧
     (blockLeftShape (resnextTransposeBuildUnits rank depth ofilters lgroups
        lfilters ks strides dil s.channels hdo pad crop) s).channels
       = ofilters) := by
  refine ⟨?_, ?_, ?_, ?_⟩
  · obtain ⟨h1, h2⟩ := merge_shapes_core
      (residualBuildUnits rank depth ofilters lfOpt ks strides dil s.channels hdo)
      s rank (by exact hsl)
      (by intro u hu
          simp only [residualBuildUnits, List.mem_map] at hu
          obtain ⟨i, hi, rfl⟩ := hu
          rfl)
      rfl
      (by by_cases hc : (checkDlFunc strides && (ofilters == s.channels)) = true
          · left
            have hc' := hc
            rw [Bool.and_eq_true] at hc'
            refine ⟨?_, ?_, ?_, ?_⟩
            · simp only [residualBuildUnits]
              rw [if_pos hc]
            · show ofilters = s.channels
              simpa using hc'.2
            · show ∀ x ∈ strides, x = 1
              exact (checkDlFunc_iff strides).mp hc'.1
            · exact hss
          · right
            refine ⟨⟨ofilters, onesL rank, strides, onesL rank, none⟩,
              ?_, rfl, rfl, hss⟩
            simp only [residualBuildUnits]
            rw [if_neg hc])
    exact ⟨h1, h2⟩
  · obtain ⟨h1, h2⟩ := merge_shapes_core
      (resnextBuildUnits rank depth ofilters lgroups lfilters ks strides dil
        s.channels hdo)
      s rank (by exact hsl)
      (by intro u hu
          simp only [resnextBuildUnits, List.mem_map] at hu
          obtain ⟨i, hi, rfl⟩ := hu
          rfl)
      rfl
      (by by_cases hc : (checkDlFunc strides && (ofilters == s.channels)) = true
          · left
            have hc' := hc
            rw [Bool.and_eq_true] at hc'
            refine ⟨?_, ?_, ?_, ?_⟩
            · simp only [resnextBuildUnits]
              rw [if_pos hc]
            · show ofilters = s.channels
              simpa using hc'.2
            · show ∀ x ∈ strides, x = 1
              exact (checkDlFunc_iff strides).mp hc'.1
            · exact hss
          · right
            refine ⟨⟨ofilters, onesL rank, strides, onesL rank, none⟩,
              ?_, rfl, rfl, hss⟩
            simp only [resnextBuildUnits]
            rw [if_neg hc])
    exact ⟨h1, h2⟩
  · obtain ⟨h1, h2⟩ := merge_shapes_core
      (residualTransposeBuildUnits rank depth ofilters lfOpt ks strides dil
        s.channels hdo pad crop)
      s rank
      (blockInShape_length _ s rank hsl
        (by intro z hz
            simp only [residualTransposeBuildUnits] at hz
            injection hz with hz'
            rw [← hz']
            exact hss)
        (by intro p hp
            simp only [residualTransposeBuildUnits] at hp
            exact hpad p hp))
      (by intro u hu
          simp only [residualTransposeBuildUnits, List.mem_map] at hu
          obtain ⟨i, hi, rfl⟩ := hu
          rfl)
      rfl
      (by by_cases hc : (ofilters == s.channels) = true
          · left
            refine ⟨?_, ?_, ?_, ?_⟩
            · simp only [residualTransposeBuildUnits]
              rw [if_pos hc]
            · rw [blockInShape_channels]
              show ofilters = s.channels
              simpa using hc
            · show ∀ x ∈ onesL rank, x = 1
              exact onesL_all_ones rank
            · show (onesL rank).length = rank
              exact onesL_length rank
          · right
            refine ⟨⟨ofilters, onesL rank, onesL rank, onesL rank, none⟩,
              ?_, rfl, rfl, onesL_length rank⟩
            simp only [residualTransposeBuildUnits]
            rw [if_neg hc])
    exact ⟨h1, h2⟩
  · obtain ⟨h1, h2⟩ := merge_shapes_core
      (resnextTransposeBuildUnits rank depth ofilters lgroups lfilters ks
        strides dil s.channels hdo pad crop)
      s rank
      (blockInShape_length _ s rank hsl
        (by intro z hz
            simp only [resnextTransposeBuildUnits] at hz
            injection hz with hz'
            rw [← hz']
            exact hss)
        (by intro p hp
            simp only [resnextTransposeBuildUnits] at hp
            exact hpad p hp))
      (by intro u hu
          simp only [resnextTransposeBuildUnits, List.mem_map] at hu
          obtain ⟨i, hi, rfl⟩ := hu
          rfl)
      rfl
      (by by_cases hc : (ofilters == s.channels) = true
          · left
            refine ⟨?_, ?_, ?_, ?_⟩
            · simp only [resnextTransposeBuildUnits]
              rw [if_pos hc]
            · rw [blockInShape_channels]
              show ofilters = s.channels
              simpa using hc
            · show ∀ x ∈ onesL rank, x = 1
              exact onesL_all_ones rank
            · show (onesL rank).length = rank
              exact onesL_length rank
          · right
            refine ⟨⟨ofilters, onesL rank, onesL rank, onesL rank, none⟩,
              ?_, rfl, rfl, onesL_length rank⟩
            simp only [resnextTransposeBuildUnits]
            rw [if_neg hc])
    exact ⟨h1, h2⟩

lemma map_const_range {α : Type} (m : Nat) (c : α) :
    (List.range m).map (fun _ => c) = List.replicate m c := by
  induction m with
  | zero => rfl
  | succ k ih =>
      rw [List.range_succ_eq_map, List.map_cons, List.map_map,
        List.replicate_succ]
      congr 1

lemma middles_eq_cons_replicate (depth rank : Nat) (lf : Int)
    (ks dil : List Int) (lg : Option Int) :
    (List.range depth).map (fun i =>
        (⟨lf, ks, onesL rank, if i = 0 then dil else onesL rank, lg⟩ : ConvUnit)) =
      (match depth with
      | 0 => []
      | m + 1 => (⟨lf, ks, onesL rank, dil, lg⟩ : ConvUnit) ::
          List.replicate m ⟨lf, ks, onesL rank, onesL rank, lg⟩) := by
  cases depth with
  | zero => rfl
  | succ m =>
      rw [List.range_succ_eq_map, List.map_cons, List.map_map]
      show (⟨lf, ks, onesL rank, if (0 : Nat) = 0 then dil else onesL rank,
          lg⟩ : ConvUnit) :: _ = _
      rw [if_pos rfl]
      congr 1
      have hf : ((fun i => (⟨lf, ks, onesL rank,
          if i = 0 then dil else onesL rank, lg⟩ : ConvUnit)) ∘ Nat.succ) =
          fun _ => (⟨lf, ks, onesL rank, onesL rank, lg⟩ : ConvUnit) := by
        funext i
        simp
      rw [hf, map_const_range]

/-- Modelled from the spec (claim wording of C4): the forward
computation of a plain residual block — the projection branch
(`_AConv` with kernel 1 carrying the block strides when some
stride differs from 1 or `ofilters` differs from the input channel
count, the unmodified input otherwise) added to the chain of the
optional dropout, a 1x1 `NACUnit` with `lfilters` filters carrying
the block strides, `depth - 2` middle `NACUnit`s with the block
`kernel_size` and `lfilters` filters at stride 1 (only the first
carrying `dilation_rate`), and a final 1x1 `NACUnit` with
`ofilters` filters; nothing else. -/
def specResidualForward {T : Type} (dUnit : ConvUnit → T → T) (dDrop : T → T)
    (dAdd : T → T → T) (rank depth : Nat) (ofilters lfilters : Int)
    (ks strides dil : List Int) (channelIn : Int) (hasDropout : Bool)
    (x : T) : T :=
  let proj := if checkDlFunc strides && ofilters == channelIn then x
    else dUnit ⟨ofilters, onesL rank, strides, onesL rank, none⟩ x
  let r0 := if hasDropout then dDrop x else x
  let r1 := dUnit ⟨lfilters, onesL rank, strides, onesL rank, none⟩ r0
  let mids : List ConvUnit := match depth with
    | 0 => []
    | m + 1 => ⟨lfilters, ks, onesL rank, dil, none⟩ ::
        List.replicate m ⟨lfilters, ks, onesL rank, onesL rank, none⟩
  let r2 := mids.foldl (fun t u => dUnit u t) r1
  dAdd proj (dUnit ⟨ofilters, onesL rank, onesL rank, onesL rank, none⟩ r2)

/-- C4: for every built plain residual block and every abstract
interpretation of the primitive layers, `call` computes exactly
`Add(projection(input), F(input))` in the claimed arrangement, and
the number of middle units is exactly the stored `depth`
(constructor argument minus 2). -/
theorem claim_C4_residual_call {T : Type} (dUnit : ConvUnit → T → T)
    (dDrop : T → T) (dAdd : T → T → T) (rank depth : Nat)
    (ofilters : Int) (lfOpt : Option Int) (ks strides dil : List Int)
    (channelIn : Int) (hdo : Bool) (x : T) :
    plainCall dUnit dDrop dAdd
        (residualBuildUnits rank depth ofilters lfOpt ks strides dil
          channelIn hdo) x =
      specResidualForward dUnit dDrop dAdd rank depth ofilters
        (lfOpt.getD (max 1 (Int.fdiv channelIn 2))) ks strides dil
        channelIn hdo x ∧
    (residualBuildUnits rank depth ofilters lfOpt ks strides dil
        channelIn hdo).layerMiddles.length = depth := by
  constructor
  · by_cases hc : (checkDlFunc strides && (ofilters == channelIn)) = true
    · simp only [plainCall, specResidualForward, residualBuildUnits,
        if_pos hc, middles_eq_cons_replicate]
    · simp only [plainCall, specResidualForward, residualBuildUnits,
        if_neg hc, middles_eq_cons_replicate]
  · simp only [residualBuildUnits, List.length_map, List.length_range]

/-- C6: in every built ResNeXt block, plain or transposed, the
entry unit is an ungrouped 1x1 `NACUnit` producing
`lgroups * lfilters` channels, each of the `depth - 2` middle
units is grouped with `lgroups` groups over `lgroups * lfilters`
channels with the block `kernel_size`, the exit unit is an
ungrouped 1x1 `NACUnit` producing `ofilters` channels, and the
projection (when present) is ungrouped as well. -/
theorem claim_C6_grouped_structure (rank depth : Nat)
    (ofilters lgroups lfilters : Int) (ks strides dil : List Int)
    (channelIn : Int) (hdo : Bool) (pad crop : Option (List (Nat × Nat))) :
    ((resnextBuildUnits rank depth ofilters lgroups lfilters ks strides dil
        channelIn hdo).layerFirst =
      ⟨lgroups * lfilters, onesL rank, strides, onesL rank, none⟩ ∧
     (resnextBuildUnits rank depth ofilters lgroups lfilters ks strides dil
        channelIn hdo).layerMiddles.length = depth ∧
     (∀ u ∈ (resnextBuildUnits rank depth ofilters lgroups lfilters ks strides
        dil channelIn hdo).layerMiddles,
        u.lgroups = some lgroups ∧ u.filters = lgroups * lfilters ∧
        u.kernelSize = ks) ∧
     (resnextBuildUnits rank depth ofilters lgroups lfilters ks strides dil
        channelIn hdo).layerLast =
      ⟨ofilters, onesL rank, onesL rank, onesL rank, none⟩ ∧
     (∀ u, (resnextBuildUnits rank depth ofilters lgroups lfilters ks strides
        dil channelIn hdo).branchLeft = some u → u.lgroups = none)) ∧
    ((resnextTransposeBuildUnits rank depth ofilters lgroups lfilters ks strides
        dil channelIn hdo pad crop).layerFirst =
      ⟨lgroups * lfilters, onesL rank, onesL rank, onesL rank, none⟩ ∧
     (resnextTransposeBuildUnits rank depth ofilters lgroups lfilters ks strides
        dil channelIn hdo pad crop).layerMiddles.length = depth ∧
     (∀ u ∈ (resnextTransposeBuildUnits rank depth ofilters lgroups lfilters ks
        strides dil channelIn hdo pad crop).layerMiddles,
        u.lgroups = some lgroups ∧ u.filters = lgroups * lfilters ∧
        u.kernelSize = ks) ∧
     (resnextTransposeBuildUnits rank depth ofilters lgroups lfilters ks strides
        dil channelIn hdo pad crop).layerLast =
      ⟨ofilters, onesL rank, onesL rank, onesL rank, none⟩ ∧
     (∀ u, (resnextTransposeBuildUnits rank depth ofilters lgroups lfilters ks
        strides dil channelIn hdo pad crop).branchLeft = some u →
        u.lgroups = none)) := by
  refine ⟨⟨rfl, ?_, ?_, rfl, ?_⟩, ⟨rfl, ?_, ?_, rfl, ?_⟩⟩
  · simp only [resnextBuildUnits, List.length_map, List.length_range]
  · intro u hu
    simp only [resnextBuildUnits, List.mem_map] at hu
    obtain ⟨i, hi, rfl⟩ := hu
    exact ⟨rfl, rfl, rfl⟩
  · intro u hu
    simp only [resnextBuildUnits] at hu
    split at hu
    · exact Option.noConfusion hu
    · injection hu with hu'
      rw [← hu']
  · simp only [resnextTransposeBuildUnits, List.length_map, List.length_range]
  · intro u hu
    simp only [resnextTransposeBuildUnits, List.mem_map] at hu
    obtain ⟨i, hi, rfl⟩ := hu
    exact ⟨rfl, rfl, rfl⟩
  · intro u hu
    simp only [resnextTransposeBuildUnits] at hu
    split at hu
    · exact Option.noConfusion hu
    · injection hu with hu'
      rw [← hu']

/-- Modelled from the spec (claim wording of C5): forward
computation of a transposed residual block — upsampling by
`strides`, then the optional zero padding, both branches consuming
that tensor, every convolution (projection, first, middle, last)
at stride 1, the `Add` merge, and the optional cropping applied
around the whole residual computation. -/
def specResidualTransposedForward {T : Type} (dUp : List Int → T → T)
    (dPad dCrop : List (Nat × Nat) → T → T) (dUnit : ConvUnit → T → T)
    (dDrop : T → T) (dAdd : T → T → T) (rank depth : Nat)
    (ofilters lfilters : Int) (ks dil strides : List Int)
    (channelIn : Int) (hasDropout : Bool)
    (pad crop : Option (List (Nat × Nat))) (x : T) : T :=
  let y0 := dUp strides x
  let y := match pad with
    | some p => dPad p y0
    | none => y0
  let proj := if ofilters == channelIn then y
    else dUnit ⟨ofilters, onesL rank, onesL rank, onesL rank, none⟩ y
  let r0 := if hasDropout then dDrop y else y
  let r1 := dUnit ⟨lfilters, onesL rank, onesL rank, onesL rank, none⟩ r0
  let mids : List ConvUnit := match depth with
    | 0 => []
    | m + 1 => ⟨lfilters, ks, onesL rank, dil, none⟩ ::
        List.replicate m ⟨lfilters, ks, onesL rank, onesL rank, none⟩
  let r2 := mids.foldl (fun t u => dUnit u t) r1
  let out := dAdd proj
    (dUnit ⟨ofilters, onesL rank, onesL rank, onesL rank, none⟩ r2)
  match crop with
  | some c => dCrop c out
  | none => out

/-- Modelled from the spec (claim wording of C5): forward
computation of a transposed ResNeXt block, as
`specResidualTransposedForward` with the grouped latent chain of
C6 (`lgroups * lfilters` channels, middle units grouped by
`lgroups`). -/
def specResnextTransposedForward {T : Type} (dUp : List Int → T → T)
    (dPad dCrop : List (Nat × Nat) → T → T) (dUnit : ConvUnit → T → T)
    (dDrop : T → T) (dAdd : T → T → T) (rank depth : Nat)
    (ofilters lgroups lfilters : Int) (ks dil strides : List Int)
    (channelIn : Int) (hasDropout : Bool)
    (pad crop : Option (List (Nat × Nat))) (x : T) : T :=
  let y0 := dUp strides x
  let y := match pad with
    | some p => dPad p y0
    | none => y0
  let proj := if ofilters == channelIn then y
    else dUnit ⟨ofilters, onesL rank, onesL rank, onesL rank, none⟩ y
  let r0 := if hasDropout then dDrop y else y
  let r1 := dUnit ⟨lgroups * lfilters, onesL rank, onesL rank, onesL rank,
    none⟩ r0
  let mids : List ConvUnit := match depth with
    | 0 => []
    | m + 1 => ⟨lgroups * lfilters, ks, onesL rank, dil, some lgroups⟩ ::
        List.replicate m ⟨lgroups * lfilters, ks, onesL rank, onesL rank,
          some lgroups⟩
  let r2 := mids.foldl (fun t u => dUnit u t) r1
  let out := dAdd proj
    (dUnit ⟨ofilters, onesL rank, onesL rank, onesL rank, none⟩ r2)
  match crop with
  | some c => dCrop c out
  | none => out

/-- C5: every successfully built transposed block computes the
corresponding residual/ResNeXt chain on the upsampled-and-padded
input — `call` applies the upsampling (factor `strides`), the
optional zero padding, feeds both branches from that tensor,
merges them with `Add`, and applies the optional cropping last;
the upsampling factor is the block strides and every convolution
inside (projection, first, middle, last) has stride 1. -/
theorem claim_C5_transposed_call {T : Type} (dUp : List Int → T → T)
    (dPad dCrop : List (Nat × Nat) → T → T) (dUnit : ConvUnit → T → T)
    (dDrop : T → T) (dAdd : T → T → T) (rank depth : Nat)
    (ofilters lgroups lfilters : Int) (lfOpt : Option Int)
    (ks strides dil : List Int) (mshape : Option (List Int))
    (op0 oc0 : Option (List (Nat × Nat))) (fmt : DataFormat)
    (inputSpatial : List Int) (channelIn : Int) (hdo : Bool) (x : T) :
    (∀ b, residualTransposeBuild rank depth ofilters lfOpt ks strides dil
        mshape op0 oc0 fmt inputSpatial channelIn hdo = .ok b →
      transposeCall dUp dPad dCrop dUnit dDrop dAdd b x =
        specResidualTransposedForward dUp dPad dCrop dUnit dDrop dAdd rank
          depth ofilters (lfOpt.getD (max 1 (Int.fdiv channelIn 2))) ks dil
          strides channelIn hdo b.outputPadding b.outputCropping x ∧
      b.upsampleSize = some strides ∧
      (∀ u, b.branchLeft = some u → u.strides = onesL rank) ∧
      b.layerFirst.strides = onesL rank ∧
      (∀ u ∈ b.layerMiddles, u.strides = onesL rank) ∧
      b.layerLast.strides = onesL rank) ∧
    (∀ b, resnextTransposeBuild rank depth ofilters lgroups lfilters ks strides
        dil mshape op0 oc0 fmt inputSpatial channelIn hdo = .ok b →
      transposeCall dUp dPad dCrop dUnit dDrop dAdd b x =
        specResnextTransposedForward dUp dPad dCrop dUnit dDrop dAdd rank depth
          ofilters lgroups lfilters ks dil strides channelIn hdo
          b.outputPadding b.outputCropping x ∧
      b.upsampleSize = some strides ∧
      (∀ u, b.branchLeft = some u → u.strides = onesL rank) ∧
      b.layerFirst.strides = onesL rank ∧
      (∀ u ∈ b.layerMiddles, u.strides = onesL rank) ∧
      b.layerLast.strides = onesL rank) := by
  constructor
  · intro b h
    simp only [residualTransposeBuild] at h
    split at h
    · exact Except.noConfusion h
    · split at h
      · exact Except.noConfusion h
      · split at h
        · exact Except.noConfusion h
        · injection h with h'
          subst h'
          refine ⟨?_, rfl, ?_, rfl, ?_, rfl⟩
          · by_cases hc : (ofilters == channelIn) = true
            · simp only [transposeCall, specResidualTransposedForward,
                residualTransposeBuildUnits, if_pos hc,
                middles_eq_cons_replicate]
            · simp only [transposeCall, specResidualTransposedForward,
                residualTransposeBuildUnits, if_neg hc,
                middles_eq_cons_replicate]
          · intro u hu
            simp only [residualTransposeBuildUnits] at hu
            split at hu
            · exact Option.noConfusion hu
            · injection hu with hu'
              rw [← hu']
          · intro u hu
            simp only [residualTransposeBuildUnits, List.mem_map] at hu
            obtain ⟨i, hi, rfl⟩ := hu
            rfl
  · intro b h
    simp only [resnextTransposeBuild] at h
    split at h
    · exact Except.noConfusion h
    · split at h
      · exact Except.noConfusion h
      · split at h
        · exact Except.noConfusion h
        · injection h with h'
          subst h'
          refine ⟨?_, rfl, ?_, rfl, ?_, rfl⟩
          · by_cases hc : (ofilters == channelIn) = true
            · simp only [transposeCall, specResnextTransposedForward,
                resnextTransposeBuildUnits, if_pos hc,
                middles_eq_cons_replicate]
            · simp only [transposeCall, specResnextTransposedForward,
                resnextTransposeBuildUnits, if_neg hc,
                middles_eq_cons_replicate]
          · intro u hu
            simp only [resnextTransposeBuildUnits] at hu
            split at hu
            · exact Option.noConfusion hu
            · injection hu with hu'
              rw [← hu']
          · intro u hu
            simp only [resnextTransposeBuildUnits, List.mem_map] at hu
            obtain ⟨i, hi, rfl⟩ := hu
            rfl

lemma inferAxis_roundtrip (m i s d : Int) (hd : d = 1) (hs : 1 ≤ s) :
    i * s + ((inferAxis m i s d).1.1 : Int) + ((inferAxis m i s d).1.2 : Int)
      - ((inferAxis m i s d).2.1 : Int) - ((inferAxis m i s d).2.2 : Int)
      = m := by
  subst hd
  have hmax : max s (1 : Int) = s := max_eq_left hs
  simp only [inferAxis, hmax]
  split_ifs with h1 h2 <;> simp <;> omega

lemma zipWith_add_zeroPairs (xs : List Int) (ps : List (Nat × Nat))
    (h : ∀ q ∈ ps, q.1 = 0 ∧ q.2 = 0) (hl : ps.length = xs.length) :
    List.zipWith (fun x q => x + (q.1 : Int) + (q.2 : Int)) xs ps = xs := by
  induction xs generalizing ps with
  | nil => simp
  | cons x xt ih =>
      cases ps with
      | nil => simp at hl
      | cons q qt =>
          obtain ⟨h1, h2⟩ := h q (by simp)
          simp only [List.zipWith_cons_cons, h1, h2, Nat.cast_zero, add_zero]
          rw [ih qt (fun r hr => h r (by simp [hr])) (by simpa using hl)]

lemma zipWith_sub_zeroPairs (xs : List Int) (ps : List (Nat × Nat))
    (h : ∀ q ∈ ps, q.1 = 0 ∧ q.2 = 0) (hl : ps.length = xs.length) :
    List.zipWith (fun x q => x - (q.1 : Int) - (q.2 : Int)) xs ps = xs := by
  induction xs generalizing ps with
  | nil => simp
  | cons x xt ih =>
      cases ps with
      | nil => simp at hl
      | cons q qt =>
          obtain ⟨h1, h2⟩ := h q (by simp)
          simp only [List.zipWith_cons_cons, h1, h2, Nat.cast_zero, sub_zero]
          rw [ih qt (fun r hr => h r (by simp [hr])) (by simpa using hl)]

lemma deFlagCollapse_some (rank : Nat) (ps qs : List (Nat × Nat))
    (h : deFlagCollapse rank ps = some qs) : qs = ps := by
  unfold deFlagCollapse at h
  split at h
  · exact Option.noConfusion h
  · injection h with h'
    exact h'.symm

lemma deFlagCollapse_none_allZero (rank : Nat) (ps : List (Nat × Nat))
    (hlen : ps.length = rank) (h : deFlagCollapse rank ps = none) :
    ∀ q ∈ ps, q.1 = 0 ∧ q.2 = 0 := by
  unfold deFlagCollapse at h
  split at h
  · rename_i hcount
    intro q hq
    have hle : ps.countP (fun p => p.1 == 0 && p.2 == 0) ≤ ps.length :=
      List.countP_le_length _
    have heq : ps.countP (fun p => p.1 == 0 && p.2 == 0) = ps.length := by
      omega
    have := List.countP_eq_length.mp heq q hq
    simpa using this
  · exact Option.noConfusion h

lemma padcrop_lists_roundtrip (ms isp ss ds : List Int)
    (hi : isp.length = ms.length) (hs : ss.length = ms.length)
    (hd : ds.length = ms.length)
    (hd1 : ∀ x ∈ ds, x = 1) (hs1 : ∀ x ∈ ss, 1 ≤ x) :
    List.zipWith (fun x (q : Nat × Nat) => x - (q.1 : Int) - (q.2 : Int))
      (List.zipWith (fun x (q : Nat × Nat) => x + (q.1 : Int) + (q.2 : Int))
        (List.zipWith (fun x z => x * z) isp ss)
        ((inferAxes ms isp ss ds).map Prod.fst))
      ((inferAxes ms isp ss ds).map Prod.snd) = ms := by
  induction ms generalizing isp ss ds with
  | nil => cases isp <;> cases ss <;> cases ds <;> rfl
  | cons m mt ih =>
      cases isp with
      | nil => simp at hi
      | cons i it =>
          cases ss with
          | nil => simp at hs
          | cons s st =>
              cases ds with
              | nil => simp at hd
              | cons d dt =>
                  simp only [inferAxes, List.map_cons, List.zipWith_cons_cons]
                  congr 1
                  · exact inferAxis_roundtrip m i s d (hd1 d (by simp))
                      (hs1 s (by simp))
                  · exact ih it st dt (by simpa using hi) (by simpa using hs)
                      (by simpa using hd) (fun x hx => hd1 x (by simp [hx]))
                      (fun x hx => hs1 x (by simp [hx]))

lemma blockRightShape_spatial_ones (b : BlockBuilt) (s : Shape) (rank : Nat)
    (hin : (blockInShape b s).spatial.length = rank)
    (hfirst : b.layerFirst.strides = onesL rank)
    (hmid : ∀ u ∈ b.layerMiddles, u.strides = onesL rank)
    (hlast : b.layerLast.strides = onesL rank) :
    (blockRightShape b s).spatial = (blockInShape b s).spatial := by
  unfold blockRightShape
  have h1 : unitOutShape b.layerFirst (blockInShape b s) =
      ⟨(blockInShape b s).spatial, b.layerFirst.filters⟩ :=
    unitOutShape_ones _ _ (by rw [hfirst]; exact onesL_all_ones rank)
      (by rw [hfirst, onesL_length, hin])
  rw [h1]
  have h2 := foldl_unitOutShape_spatial b.layerMiddles
    ⟨(blockInShape b s).spatial, b.layerFirst.filters⟩ rank hin hmid
  rw [unitOutShape_ones _ _ (by rw [hlast]; exact onesL_all_ones rank)
    (by rw [hlast, onesL_length, h2]; exact hin.symm)]
  exact h2

lemma transpose_output_spatial (rank : Nat) (b : BlockBuilt)
    (ms isp ss ds : List Int) (ch : Int)
    (hup : b.upsampleSize = some ss)
    (hpad : b.outputPadding = (inferPadCrop rank ms isp ss ds).1)
    (hcrop : b.outputCropping = (inferPadCrop rank ms isp ss ds).2)
    (hfirst : b.layerFirst.strides = onesL rank)
    (hmid : ∀ u ∈ b.layerMiddles, u.strides = onesL rank)
    (hlast : b.layerLast.strides = onesL rank)
    (hms : ms.length = rank) (hisp : isp.length = rank)
    (hss : ss.length = rank) (hds : ds.length = rank)
    (hd1 : ∀ x ∈ ds, x = 1) (hs1 : ∀ x ∈ ss, 1 ≤ x) :
    (blockOutputShape b ⟨isp, ch⟩).spatial = ms := by
  have haxlen : (inferAxes ms isp ss ds).length = rank := by
    rw [inferAxes_length ms isp ss ds (by omega) (by omega) (by omega)]
    exact hms
  have hpadslen : ((inferAxes ms isp ss ds).map Prod.fst).length = rank := by
    rw [List.length_map]
    exact haxlen
  have hcropslen : ((inferAxes ms isp ss ds).map Prod.snd).length = rank := by
    rw [List.length_map]
    exact haxlen
  have huplen : (List.zipWith (fun x z => x * z) isp ss).length = rank := by
    rw [List.length_zipWith, hisp, hss]
    exact Nat.min_self rank
  have hinsp : (blockInShape b ⟨isp, ch⟩).spatial =
      List.zipWith (fun x (q : Nat × Nat) => x + (q.1 : Int) + (q.2 : Int))
        (List.zipWith (fun x z => x * z) isp ss)
        ((inferAxes ms isp ss ds).map Prod.fst) := by
    unfold blockInShape
    rw [hup, hpad]
    have hfst : (inferPadCrop rank ms isp ss ds).1 =
        deFlagCollapse rank ((inferAxes ms isp ss ds).map Prod.fst) := rfl
    rw [hfst]
    cases hcase : deFlagCollapse rank ((inferAxes ms isp ss ds).map Prod.fst) with
    | some p =>
        have hp := deFlagCollapse_some rank _ p hcase
        subst hp
        rfl
    | none =>
        have hz := deFlagCollapse_none_allZero rank _ hpadslen hcase
        show (upsampleShape ss ⟨isp, ch⟩).spatial = _
        rw [zipWith_add_zeroPairs _ _ hz (by rw [hpadslen, huplen])]
        rfl
  have hinlen : (blockInShape b ⟨isp, ch⟩).spatial.length = rank := by
    rw [hinsp, List.length_zipWith, huplen, hpadslen]
    exact Nat.min_self rank
  have hright := blockRightShape_spatial_ones b ⟨isp, ch⟩ rank hinlen hfirst
    hmid hlast
  have hround := padcrop_lists_roundtrip ms isp ss ds (by omega) (by omega)
    (by omega) hd1 hs1
  unfold blockOutputShape
  rw [hcrop]
  have hsnd : (inferPadCrop rank ms isp ss ds).2 =
      deFlagCollapse rank ((inferAxes ms isp ss ds).map Prod.snd) := rfl
  rw [hsnd]
  cases hcase : deFlagCollapse rank ((inferAxes ms isp ss ds).map Prod.snd) with
  | some c =>
      have hc := deFlagCollapse_some rank _ c hcase
      subst hc
      show (cropShape _ (mergeShape (blockLeftShape b ⟨isp, ch⟩)
        (blockRightShape b ⟨isp, ch⟩))).spatial = ms
      unfold cropShape mergeShape
      rw [hright, hinsp]
      exact hround
  | none =>
      have hz := deFlagCollapse_none_allZero rank _ hcropslen hcase
      show (mergeShape (blockLeftShape b ⟨isp, ch⟩)
        (blockRightShape b ⟨isp, ch⟩)).spatial = ms
      unfold mergeShape
      rw [hright, hinsp]
      rw [← zipWith_sub_zeroPairs
        (List.zipWith (fun x (q : Nat × Nat) => x + (q.1 : Int) + (q.2 : Int))
          (List.zipWith (fun x z => x * z) isp ss)
          ((inferAxes ms isp ss ds).map Prod.fst))
        ((inferAxes ms isp ss ds).map Prod.snd) hz
        (by rw [hcropslen, List.length_zipWith, huplen, hpadslen]
            rw [Nat.min_self rank])]
      exact hround

/-- C1 counterexample, two concrete defeating inputs.  First, a
channels_last transposed residual block (rank 2, `strides (1,1)`,
`dilation_rate (2,2)`, input spatial `(5,5)`, `output_mshape`
spatial `(8,8)`) builds successfully but yields spatial `(3,3)` —
the inferred difference is taken against
`input * max(strides, dilation)` while the assembled chain scales
only by `strides`.  Second, a channels_first block (rank 2,
`strides (2,2)`, dilation 1, input full shape `(None,4,5,7)`,
`output_mshape (None,4,10,14)`) builds successfully but yields
spatial `(6,14)`, not `(10,14)` — the source's `[1:-1]` slice
feeds the channel count into the axis-0 difference and drops the
last spatial axis. -/
theorem claim_C1_counterexample :
    ((residualTransposeBuild 2 1 4 (some 2) [3, 3] [1, 1] [2, 2]
        (some [1, 8, 8, 4]) none none DataFormat.channelsLast [5, 5] 4
        false).map
      (fun b => (blockOutputShape b ⟨[5, 5], 4⟩).spatial)).toOption
      = some [3, 3] ∧
    ([3, 3] : List Int) ≠ [8, 8] ∧
    ((residualTransposeBuild 2 1 4 (some 2) [3, 3] [2, 2] [1, 1]
        (some [1, 4, 10, 14]) none none DataFormat.channelsFirst [5, 7] 4
        false).map
      (fun b => (blockOutputShape b ⟨[5, 7], 4⟩).spatial)).toOption
      = some [6, 14] ∧
    ([6, 14] : List Int) ≠ [10, 14] := by
  exact ⟨rfl, by decide, rfl, by decide⟩

/-- C1 (amended): for every transposed residual or ResNeXt block
built with `output_mshape` specified, under the `channels_last`
data format (where the source's `[1:-1]` slices are the spatial
entries) and with all `dilation_rate` entries 1 (strides
positive), the spatial dimensions of the shape computed for the
block's output equal the spatial entries of `output_mshape`
exactly; with a dilation entry above 1 or under `channels_first`
the equality fails, as the counterexample shows. -/
theorem claim_C1_output_mshape (rank depth : Nat) (ofilters : Int)
    (lfOpt : Option Int) (lgroups lfilters : Int) (ks strides dil : List Int)
    (ms inputSpatial : List Int) (batch msChannels channelIn : Int)
    (hdo : Bool) (op0 oc0 : Option (List (Nat × Nat)))
    (hms : ms.length = rank) (hin : inputSpatial.length = rank)
    (hss : strides.length = rank) (hdl : dil.length = rank)
    (hdil1 : ∀ x ∈ dil, x = 1) (hspos : ∀ x ∈ strides, 1 ≤ x) :
    (∀ b, residualTransposeBuild rank depth ofilters lfOpt ks strides dil
        (some (batch :: ms ++ [msChannels])) op0 oc0 DataFormat.channelsLast
        inputSpatial channelIn hdo = .ok b →
      (blockOutputShape b ⟨inputSpatial, channelIn⟩).spatial = ms) ∧
    (∀ b, resnextTransposeBuild rank depth ofilters lgroups lfilters ks strides
        dil (some (batch :: ms ++ [msChannels])) op0 oc0
        DataFormat.channelsLast inputSpatial channelIn hdo = .ok b →
      (blockOutputShape b ⟨inputSpatial, channelIn⟩).spatial = ms) := by
  have hslice : sliceFull (batch :: ms ++ [msChannels]) = ms :=
    sliceFull_channelsLast batch msChannels ms
  constructor
  · intro b h
    simp only [residualTransposeBuild] at h
    split at h
    · exact Except.noConfusion h
    · split at h
      · exact Except.noConfusion h
      · split at h
        · exact Except.noConfusion h
        · injection h with h'
          subst h'
          refine transpose_output_spatial rank _ ms inputSpatial strides dil
            channelIn rfl ?_ ?_ rfl ?_ rfl hms hin hss hdl hdil1 hspos
          · show (inferPadCrop rank (sliceFull (batch :: ms ++ [msChannels]))
              inputSpatial strides dil).1 =
              (inferPadCrop rank ms inputSpatial strides dil).1
            rw [hslice]
          · show (inferPadCrop rank (sliceFull (batch :: ms ++ [msChannels]))
              inputSpatial strides dil).2 =
              (inferPadCrop rank ms inputSpatial strides dil).2
            rw [hslice]
          · intro u hu
            simp only [residualTransposeBuildUnits, List.mem_map] at hu
            obtain ⟨i, hi, rfl⟩ := hu
            rfl
  · intro b h
    simp only [resnextTransposeBuild] at h
    split at h
    · exact Except.noConfusion h
    · split at h
      · exact Except.noConfusion h
      · split at h
        · exact Except.noConfusion h
        · injection h with h'
          subst h'
          refine transpose_output_spatial rank _ ms inputSpatial strides dil
            channelIn rfl ?_ ?_ rfl ?_ rfl hms hin hss hdl hdil1 hspos
          · show (inferPadCrop rank (sliceFull (batch :: ms ++ [msChannels]))
              inputSpatial strides dil).1 =
              (inferPadCrop rank ms inputSpatial strides dil).1
            rw [hslice]
          · show (inferPadCrop rank (sliceFull (batch :: ms ++ [msChannels]))
              inputSpatial strides dil).2 =
              (inferPadCrop rank ms inputSpatial strides dil).2
            rw [hslice]
          · intro u hu
            simp only [resnextTransposeBuildUnits, List.mem_map] at hu
            obtain ⟨i, hi, rfl⟩ := hu
            rfl

theorem claim_C1_output_mshape_witness :
    residualTransposeBuild 2 1 4 (some 2) [3, 3] [2, 2] [1, 1]
        (some [1, 8, 8, 4]) none none DataFormat.channelsLast [3, 3] 4 false =
      .ok (residualTransposeBuildUnits 2 1 4 (some 2) [3, 3] [2, 2] [1, 1] 4
        false (some [(1, 1), (1, 1)]) none) ∧
    (blockOutputShape (residualTransposeBuildUnits 2 1 4 (some 2) [3, 3] [2, 2]
        [1, 1] 4 false (some [(1, 1), (1, 1)]) none) ⟨[3, 3], 4⟩).spatial
      = [8, 8] := by
  have hb : residualTransposeBuild 2 1 4 (some 2) [3, 3] [2, 2] [1, 1]
      (some [1, 8, 8, 4]) none none DataFormat.channelsLast [3, 3] 4 false =
      .ok (residualTransposeBuildUnits 2 1 4 (some 2) [3, 3] [2, 2] [1, 1] 4
        false (some [(1, 1), (1, 1)]) none) := rfl
  exact ⟨hb, (claim_C1_output_mshape 2 1 4 (some 2) 4 3 [3, 3] [2, 2] [1, 1]
    [8, 8] [3, 3] 1 4 4 false none none rfl rfl rfl rfl (by decide)
    (by decide)).1 _ hb⟩

theorem claim_C5_transposed_call_witness :
    residualTransposeBuild 2 1 4 (some 2) [3, 3] [2, 2] [1, 1]
        (some [1, 8, 8, 4]) none none DataFormat.channelsLast [3, 3] 4 false =
      .ok (residualTransposeBuildUnits 2 1 4 (some 2) [3, 3] [2, 2] [1, 1] 4
        false (some [(1, 1), (1, 1)]) none) ∧
    transposeCall (fun _ x => x + 100) (fun _ x => x + 10)
        (fun _ x => x + 1000) (fun u x => 2 * x + u.filters) (fun x => x + 7)
        (fun a b => a + b)
        (residualTransposeBuildUnits 2 1 4 (some 2) [3, 3] [2, 2] [1, 1] 4
          false (some [(1, 1), (1, 1)]) none) (5 : Int) =
      specResidualTransposedForward (fun _ x => x + 100) (fun _ x => x + 10)
        (fun _ x => x + 1000) (fun u x => 2 * x + u.filters) (fun x => x + 7)
        (fun a b => a + b) 2 1 4 2 [3, 3] [1, 1] [2, 2] 4 false
        (some [(1, 1), (1, 1)]) none (5 : Int) := by
  have hb : residualTransposeBuild 2 1 4 (some 2) [3, 3] [2, 2] [1, 1]
      (some [1, 8, 8, 4]) none none DataFormat.channelsLast [3, 3] 4 false =
      .ok (residualTransposeBuildUnits 2 1 4 (some 2) [3, 3] [2, 2] [1, 1] 4
        false (some [(1, 1), (1, 1)]) none) := rfl
  refine ⟨hb, ?_⟩
  exact ((claim_C5_transposed_call (fun _ x => x + 100) (fun _ x => x + 10)
    (fun _ x => x + 1000) (fun u x => 2 * x + u.filters) (fun x => x + 7)
    (fun a b => a + b) 2 1 4 9 3 (some 2) [3, 3] [2, 2] [1, 1]
    (some [1, 8, 8, 4]) none none DataFormat.channelsLast [3, 3] 4 false
    (5 : Int)).1 _ hb).1

theorem claim_C6_grouped_structure_witness :
    (resnextBuildUnits 2 1 8 4 3 [3, 3] [2, 2] [1, 1] 6 false).layerMiddles.length
      = 1 ∧
    (⟨12, [3, 3], onesL 2, [1, 1], some 4⟩ : ConvUnit).lgroups = some 4 := by
  have h := claim_C6_grouped_structure 2 1 8 4 3 [3, 3] [2, 2] [1, 1] 6 false
    none none
  refine ⟨h.1.2.1, ?_⟩
  exact (h.1.2.2.1 ⟨12, [3, 3], onesL 2, [1, 1], some 4⟩ (by decide)).1

theorem claim_C7_merge_branch_shapes_witness :
    blockLeftShape (residualBuildUnits 2 1 8 none [3, 3] [2, 2] [1, 1] 4 false)
        ⟨[5, 5], 4⟩ =
      blockRightShape (residualBuildUnits 2 1 8 none [3, 3] [2, 2] [1, 1] 4
        false) ⟨[5, 5], 4⟩ ∧
    blockLeftShape (residualBuildUnits 2 1 8 none [3, 3] [2, 2] [1, 1] 4 false)
        ⟨[5, 5], 4⟩ = ⟨[3, 3], 8⟩ := by
  have h := claim_C7_merge_branch_shapes 2 1 8 9 3 none [3, 3] [2, 2] [1, 1]
    false ⟨[5, 5], 4⟩ none none rfl rfl
    (fun p hp => Option.noConfusion hp)
  exact ⟨h.1.1, by decide⟩
